import Mathlib

/-!
Verification development for the concurrent multi-object extraction engine
of `entityxtract` (`src/llm_extractor/extractor.py` together with the data
model of `src/entityxtract/extractor_types.py`).

The Python code is shallowly embedded: dynamic (duck-typed) values become
the inductive `PyVal`; functions that can raise return `Except String`;
the external collaborators (the chat-model client, the JSON library, the
cost-lookup HTTP endpoint) become explicit oracle parameters; the thread
pool of `extract_objects` becomes an explicit completion-order parameter.
-/

/-- Dynamic Python value, as used by the duck-typed metadata handling in
`_parse_token_usage` and `_fetch_generation_cost`. Dictionaries are
insertion-ordered association lists, as in CPython. -/
inductive PyVal where
  | none : PyVal
  | bool (b : Bool) : PyVal
  | int (n : Int) : PyVal
  | str (s : String) : PyVal
  | list (xs : List PyVal) : PyVal
  | dict (fields : List (String × PyVal)) : PyVal

/-- Python truthiness (`bool(v)`): `None`, `False`, `0`, `""`, `[]`, `{}`
are falsy, everything else truthy. -/
def pyTruthy : PyVal → Bool
  | .none => false
  | .bool b => b
  | .int n => n != 0
  | .str s => !s.isEmpty
  | .list xs => !xs.isEmpty
  | .dict d => !d.isEmpty

/-- Python `a or b`: `a` if it is truthy, else `b`. -/
def pyOr (a b : PyVal) : PyVal := if pyTruthy a then a else b

/-- First value stored under key `k` in an association list (CPython dicts
never hold duplicate keys, so this is ordinary dict access). -/
def dlookup {α : Type} (l : List (String × α)) (k : String) : Option α :=
  match l with
  | [] => Option.none
  | p :: rest => if p.1 = k then some p.2 else dlookup rest k

/-- Python `dict[k] = v`: replace the value in place if the key exists,
otherwise append the pair (insertion order is preserved). -/
def dictInsert {α : Type} (k : String) (v : α) : List (String × α) → List (String × α)
  | [] => [(k, v)]
  | p :: rest => if p.1 = k then (k, v) :: rest else p :: dictInsert k v rest

/-- Keys of an association list, in order. -/
def dictKeys {α : Type} (l : List (String × α)) : List String := l.map Prod.fst

/-- Python `d.get(k, default)` on a `PyVal` (non-dicts yield the default;
the embedding only applies it where the source has checked `isinstance`). -/
def pyGetD (v : PyVal) (k : String) (default : PyVal) : PyVal :=
  match v with
  | .dict d => (dlookup d k).getD default
  | _ => default

/-- Python `d.get(k)` (missing key yields `None`). -/
def pyGet (v : PyVal) (k : String) : PyVal := pyGetD v k .none

/-- Whether a `PyVal` is a Python dict (`isinstance(v, dict)`). -/
def PyVal.isDictV : PyVal → Bool
  | .dict _ => true
  | _ => false

/-- Whether a `PyVal` is Python `None` (`v is None`); distinct from mere
falsiness. -/
def PyVal.isNoneV : PyVal → Bool
  | .none => true
  | _ => false

/-- Remove every pair stored under key `k`. -/
def eraseKey {α : Type} (k : String) (l : List (String × α)) : List (String × α) :=
  l.filter (fun p => p.1 ≠ k)

/-- Numeric reading of a `PyVal`, used where the source feeds a JSON number
into a float-typed field (`cost`). Non-numeric values read as `none`. -/
def asRatQ : PyVal → Option Rat
  | .int n => some (n : Rat)
  | _ => Option.none

/-- Python whitespace for `str.strip()`. -/
def isPyWs (c : Char) : Bool :=
  c = ' ' || c = '\t' || c = '\n' || c = '\r' || c = '\x0b' || c = '\x0c'

/-- Fuelled core of Python `str.replace`: scan left to right, replace each
non-overlapping occurrence of `pat`, and continue after the replaced text.
One unit of fuel is spent per consumed character, so `s.length` fuel always
suffices. -/
def replFuel (pat repl : List Char) : Nat → List Char → List Char
  | 0, s => s
  | _ + 1, [] => []
  | fuel + 1, c :: cs =>
    if pat ≠ [] ∧ pat.isPrefixOf (c :: cs) then
      repl ++ replFuel pat repl fuel (cs.drop (pat.length - 1))
    else
      c :: replFuel pat repl fuel cs

/-- Python `s.replace(pat, repl)` on character lists. -/
def replaceL (pat repl s : List Char) : List Char := replFuel pat repl s.length s

/-- Python `s.replace(pat, repl)` on strings. -/
def pyReplace (s pat repl : String) : String := ⟨replaceL pat.data repl.data s.data⟩

/-- Python `s.strip()`. -/
def pyStrip (s : String) : String :=
  ⟨((s.data.dropWhile isPyWs).reverse.dropWhile isPyWs).reverse⟩

/-- Python `s[:n]`. -/
def pyTake (s : String) (n : Nat) : String := ⟨s.data.take n⟩

/-! ## Data model (`src/entityxtract/extractor_types.py`) -/

/-- File input modes (`FileInputMode`). -/
inductive FileInputMode where
  | file : FileInputMode
  | text : FileInputMode
  | image : FileInputMode
deriving DecidableEq

/-- Extraction configuration (`ExtractionConfig`). `model_name` defaults from
the external configuration resolver and is passed explicitly here. -/
structure ExtractionConfig where
  model_name : String := ""
  temperature : Rat := 0
  max_retries : Int := 3
  parallel_requests : Int := 1
  file_input_modes : List FileInputMode := [FileInputMode.file]
  calculate_costs : Bool := false

/-- Extraction target. Python passes duck-typed objects, so beside the two
declared variants (`TableToExtract`, `StringToExtract`) an `unknown` variant
models any other object reaching `get_prompt`. The polars example table is
represented by its column names and its printed 3-row head
(`example_table.head(3).to_dicts().__str__()`), both produced externally. -/
inductive ExtractableObject where
  | table (name : String) (exampleColumns : List String) (exampleRepr : String)
      (instructions : String) (required : Bool)
  | str (name : String) (exampleString : String) (instructions : String) (required : Bool)
  | unknown (name : String) (typeName : String)

/-- The `.name` attribute used for keying results. -/
def ExtractableObject.name : ExtractableObject → String
  | .table n _ _ _ _ => n
  | .str n _ _ _ => n
  | .unknown n _ => n

/-- Whether the object is one of the two declared variants of
`ExtractableObjectTypes`. -/
def ExtractableObject.isKnownVariant : ExtractableObject → Bool
  | .table _ _ _ _ _ => true
  | .str _ _ _ _ => true
  | .unknown _ _ => false

/-- Document collaborator: the core only reads `text`, `image` and `binary`
(spec section 6). Images and raw bytes are carried as their base64 renderings. -/
structure Document where
  text : String := ""
  image : Option String := Option.none
  binary : String := ""

/-- Per-target extraction outcome (`ExtractionResult`). Token fields are
dynamic values in the source (duck-typed metadata flows into them), so they
are `PyVal` here; `cost` is the numeric value produced by the cost lookup. -/
structure ExtractionResult where
  extracted_data : PyVal
  response_raw : PyVal
  success : Bool
  message : String
  input_tokens : PyVal := PyVal.none
  output_tokens : PyVal := PyVal.none
  cost : Option Rat := Option.none

/-- Aggregated result set (`ExtractionResults`). `results` is an
insertion-ordered dict keyed by target name. -/
structure ExtractionResults where
  results : List (String × ExtractionResult)
  success : Bool
  message : Option String := Option.none
  total_input_tokens : Option Int := Option.none
  total_output_tokens : Option Int := Option.none
  total_cost : Option Rat := Option.none

/-- Batch request (`ObjectsToExtract`). -/
structure ObjectsToExtract where
  objects : List ExtractableObject
  config : ExtractionConfig

/-! ## RequestBuilder (`_build_messages`, `prompts.get_prompt`)

The prompt template files (`system.txt`, `table.txt`, `string.txt`) are
external data files; their contents are modelled by fixed constants, with
placeholder markers as in the repository templates. -/

/-- Contents of `prompts/system.txt` (external data file). -/
def systemPromptText : String := "You are a precise data extraction engine."

/-- Contents of `prompts/table.txt` (external data file). -/
def tablePromptTemplate : String :=
  "Extract table \x7b\x7bname\x7d\x7d with columns \x7b\x7bcolumns\x7d\x7d. Example: \x7b\x7bexample\x7d\x7d. \x7b\x7binstructions\x7d\x7d\x7b\x7btext\x7d\x7d"

/-- Contents of `prompts/string.txt` (external data file). -/
def stringPromptTemplate : String :=
  "Extract string \x7b\x7bname\x7d\x7d. Example: \x7b\x7bexample\x7d\x7d. \x7b\x7binstructions\x7d\x7d\x7b\x7btext\x7d\x7d"

/-- Name placeholder `{{name}}` (written with escapes). -/
def phName : String := "\x7b\x7bname\x7d\x7d"

/-- Columns placeholder. -/
def phColumns : String := "\x7b\x7bcolumns\x7d\x7d"

/-- Example placeholder. -/
def phExample : String := "\x7b\x7bexample\x7d\x7d"

/-- Instructions placeholder. -/
def phInstructions : String := "\x7b\x7binstructions\x7d\x7d"

/-- Text placeholder. -/
def phText : String := "\x7b\x7btext\x7d\x7d"

/-- `get_system_prompt`. -/
def getSystemPrompt : String := systemPromptText

/-- `get_prompt`: template substitution per variant; an unrecognized object
raises `ValueError(f"Unknown object type: {type(obj)}")`. -/
def getPrompt (obj : ExtractableObject) : Except String String :=
  match obj with
  | .str n ex instr _ =>
    .ok (pyReplace (pyReplace (pyReplace stringPromptTemplate phName n) phExample ex)
      phInstructions instr)
  | .table n cols ex instr _ =>
    .ok (pyReplace (pyReplace (pyReplace (pyReplace tablePromptTemplate phName n)
      phColumns (String.intercalate ", " cols)) phExample ex) phInstructions instr)
  | .unknown _ ty => .error ("Unknown object type: " ++ ty)

/-- One part of a user message (`HumanMessage` content entries). -/
inductive MessagePart where
  | image_url (url : String)
  | filePart (filename : String) (file_data : String)
  | textPart (t : String)

/-- A chat message (`SystemMessage` / `HumanMessage`). -/
inductive ChatMessage where
  | system (content : String)
  | human (content : List MessagePart)

/-- `_build_messages`: substitute the document text in TEXT mode, append the
image attachment (skipped when no image data is available) and the whole-file
attachment per the configured input modes, then wrap in system/human messages.
Raises whatever `get_prompt` raises. -/
def buildMessages (doc : Document) (obj : ExtractableObject) (config : ExtractionConfig) :
    Except String (List ChatMessage) :=
  match getPrompt obj with
  | .error e => .error e
  | .ok prompt0 =>
    let prompt :=
      if config.file_input_modes.contains FileInputMode.text then
        pyReplace prompt0 phText ("\n\n" ++ doc.text)
      else prompt0
    let imageAttachments : List MessagePart :=
      if config.file_input_modes.contains FileInputMode.image then
        match doc.image with
        | some img => [MessagePart.image_url ("data:image/jpeg;base64," ++ img)]
        | Option.none => []
      else []
    let fileAttachments : List MessagePart :=
      if config.file_input_modes.contains FileInputMode.file then
        [MessagePart.filePart "document.pdf" ("data:application/pdf;base64," ++ doc.binary)]
      else []
    .ok [ChatMessage.system getSystemPrompt,
         ChatMessage.human (imageAttachments ++ fileAttachments ++ [MessagePart.textPart prompt])]

/-! ## ResponseParser (`_parse_token_usage`, `_clean_response_content`) -/

/-- A model response as the core observes it (`response.content` after `str`
coercion, the outcome of `response.dict()` — `Option.none` when it raises —
and the `usage_metadata` / `response_metadata` attributes, `PyVal.none` when
absent). -/
structure Resp where
  content : String
  dictResult : Option PyVal := Option.none
  usageMetaAttr : PyVal := PyVal.none
  respMetaAttr : PyVal := PyVal.none

/-- Lines 124-126: `(response_dict.get("usage_metadata") if isinstance(response_dict, dict)
else None) or getattr(response, "usage_metadata", None)`. -/
def usageMetaOf (resp : Resp) (rd : Option PyVal) : PyVal :=
  pyOr
    (match rd with
     | some d => if d.isDictV then pyGet d "usage_metadata" else PyVal.none
     | Option.none => PyVal.none)
    resp.usageMetaAttr

/-- Lines 132-140: the same dict-or-attribute fallback for
`response_metadata`, with a final `or {}`. -/
def respMetaOf (resp : Resp) (rd : Option PyVal) : PyVal :=
  pyOr
    (pyOr
      (match rd with
       | some d => if d.isDictV then pyGet d "response_metadata" else PyVal.none
       | Option.none => PyVal.none)
      resp.respMetaAttr)
    (PyVal.dict [])

/-- Lines 122-146 of `_parse_token_usage`, after the two metadata sources are
fixed: primary `usage_metadata` fields combined with Python `or`, then the
`token_usage` block inside `response_metadata` when a token count is still
`None`. When `token_usage` holds a truthy non-dict, the `.get` calls raise
`AttributeError` (modelled as the error case), which the caller's generic
handler turns into a failed attempt. -/
def tokensCore (usageMeta respMeta : PyVal) : Except String (PyVal × PyVal) :=
  let input0 :=
    if usageMeta.isDictV then pyOr (pyGet usageMeta "input_tokens") (pyGet usageMeta "prompt_tokens")
    else PyVal.none
  let output0 :=
    if usageMeta.isDictV then
      pyOr (pyGet usageMeta "output_tokens") (pyGet usageMeta "completion_tokens")
    else PyVal.none
  if (input0.isNoneV || output0.isNoneV) && respMeta.isDictV then
    let tu := pyOr (pyGetD respMeta "token_usage" (PyVal.dict [])) (PyVal.dict [])
    if tu.isDictV then
      .ok (pyOr (pyOr input0 (pyGet tu "input_tokens")) (pyGet tu "prompt_tokens"),
           pyOr (pyOr output0 (pyGet tu "output_tokens")) (pyGet tu "completion_tokens"))
    else .error "AttributeError: object has no attribute get"
  else .ok (input0, output0)

/-- `_parse_token_usage(response, response_dict)`: returns
`(input_tokens, output_tokens, resp_meta, usage_meta)`; raises only through
`tokensCore`. -/
def parseTokenUsage (resp : Resp) (rd : Option PyVal) :
    Except String (PyVal × PyVal × PyVal × PyVal) :=
  let um := usageMetaOf resp rd
  let rm := respMetaOf resp rd
  match tokensCore um rm with
  | .ok (i, o) => .ok (i, o, rm, um)
  | .error e => .error e

/-- Fence-stripping cleaner on a content string (lines 154-155):
remove every occurrence of three backticks followed by `json`, then every
occurrence of three backticks, then strip surrounding whitespace. -/
def cleanStr (content : String) : String :=
  pyStrip (pyReplace (pyReplace content "```json" "") "```" "")

/-- `_clean_response_content(response)`: clean `str(response.content)`. -/
def cleanResponseContent (resp : Resp) : String := cleanStr resp.content

/-- Line 318: `content_str[:200].replace("\n", " ")`. -/
def previewOf (contentStr : String) : String := pyReplace (pyTake contentStr 200) "\n" " "

/-! ## CostResolver (`_fetch_generation_cost`) -/

/-- One observed outcome of the HTTP GET against the generation endpoint:
either the call raises (transport error), or it returns a response with a
status code, a `resp.json()` outcome and a body text. -/
inductive CostHttp where
  | err (msg : String)
  | resp (status : Nat) (body : Except String PyVal) (text : String)

/-- The cost-lookup collaborator as one extraction attempt sees it: whether
`import requests` succeeds, and the outcome of the k-th lookup attempt
(k = 1, 2, 3). -/
structure CostOracle where
  importOk : Bool := true
  http : Nat → CostHttp := fun _ => CostHttp.err "unused"

/-- `requests` `Response.ok`: status in [200, 400). -/
def respOkB (status : Nat) : Bool := 200 ≤ status && status < 400

/-- Lines 193-200: `data = generation_stats.get("data", {})`,
`cost = data.get("total_cost")`; an `AttributeError` on a non-dict is caught
by the inner handler and leaves the cost unknown. -/
def extractCost (g : PyVal) : Option Rat :=
  match g with
  | .dict _ =>
    let data := pyGetD g "data" (PyVal.dict [])
    match data with
    | .dict _ => asRatQ (pyGet data "total_cost")
    | _ => Option.none
  | _ => Option.none

/-- Lines 181-217, the bounded lookup loop over `delays = [0.5, 1.0, 2.0]`:
`rem` counts the retries still allowed (initially 2), `k` is the 1-based
attempt number. A transport error or a `resp.json()` error is caught by the
enclosing handler with both cost and stats unknown; a 404 before the final
attempt sleeps and retries; any other non-OK status breaks. -/
def costLoopAux (o : CostOracle) : Nat → Nat → Option Rat × Option PyVal
  | rem, k =>
    match o.http k with
    | .err _ => (Option.none, Option.none)
    | .resp status body _ =>
      if respOkB status then
        match body with
        | .error _ => (Option.none, Option.none)
        | .ok g => (extractCost g, some g)
      else
        match rem with
        | rem' + 1 => if status = 404 then costLoopAux o rem' (k + 1) else (Option.none, Option.none)
        | 0 => (Option.none, Option.none)

/-- `_fetch_generation_cost(config, resp_meta)`: a no-op unless
`calculate_costs` is set and the response metadata carries a truthy
generation id; an `ImportError` of `requests` is caught and skipped. The
whole body is wrapped in a generic handler, so the function always returns
`(cost, generation_stats)` and never raises into the caller. -/
def fetchGenerationCost (config : ExtractionConfig) (respMeta : PyVal) (o : CostOracle) :
    Option Rat × Option PyVal :=
  let generationId := if respMeta.isDictV then pyGet respMeta "id" else PyVal.none
  if config.calculate_costs && pyTruthy generationId then
    if o.importOk then costLoopAux o 2 1
    else (Option.none, Option.none)
  else (Option.none, Option.none)

/-! ## RetryExecutor (`extract_object`) -/

/-- Outcome of one `model.invoke(messages)` call: a raised transport error or
a response object. -/
inductive InvokeOutcome where
  | raiseErr (msg : String)
  | ok (resp : Resp)

/-- The external collaborators of one target's extraction run: the model
invocation per attempt, the JSON library's behaviour on cleaned content
strings (`json.loads` either returns a value or raises `JSONDecodeError`),
and the cost-lookup collaborator per attempt. -/
structure TargetOracle where
  invoke : Nat → InvokeOutcome
  jsonParse : String → Except String PyVal := fun _ => .error "Expecting value"
  costHttp : Nat → CostOracle := fun _ => {}

/-- The `last_*` variables threaded through the retry loop
(lines 262-266): `last_error_msg`, `last_input_tokens`, `last_output_tokens`,
`last_response_raw_payload`, `last_cost`. -/
structure LastState where
  errMsg : Option String := Option.none
  inTok : PyVal := PyVal.none
  outTok : PyVal := PyVal.none
  raw : PyVal := PyVal.none
  cost : Option Rat := Option.none

/-- Observable events of one retry loop: a model invocation (with its
1-based attempt number) and a backoff sleep (with its duration in seconds). -/
inductive REvent where
  | invoke (attempt : Nat)
  | sleep (seconds : Nat)
deriving DecidableEq

/-- Line 261: `max_retries = max(1, int(config.max_retries or 1))`. -/
def effMaxRetries (config : ExtractionConfig) : Nat :=
  (max 1 (if config.max_retries = 0 then 1 else config.max_retries)).toNat

/-- The `(cost, generation_stats)` pair fetched on one attempt (line 281). -/
def costStats (config : ExtractionConfig) (o : TargetOracle) (attempt : Nat) (respMeta : PyVal) :
    Option Rat × Option PyVal :=
  fetchGenerationCost config respMeta (o.costHttp attempt)

/-- Lines 285-295: the raw payload saved for the attempt — the serialized
response dict when available, otherwise a fallback dict of content and
metadata; `generation_stats` is added when the cost lookup produced stats. -/
def payloadOf (config : ExtractionConfig) (o : TargetOracle) (attempt : Nat) (resp : Resp)
    (respMeta usageMeta : PyVal) : PyVal :=
  let base : PyVal :=
    match resp.dictResult with
    | some d =>
      if d.isDictV then d
      else PyVal.dict [("content", PyVal.str resp.content),
        ("response_metadata", respMeta), ("usage_metadata", usageMeta)]
    | Option.none =>
      PyVal.dict [("content", PyVal.str resp.content),
        ("response_metadata", respMeta), ("usage_metadata", usageMeta)]
  match (costStats config o attempt respMeta).2 with
  | some g =>
    (match base with
     | PyVal.dict d => PyVal.dict (dictInsert "generation_stats" g d)
     | other => other)
  | Option.none => base

/-- The saved state after an attempt whose response was obtained and whose
token metadata parsed, but whose content failed JSON decoding
(lines 297-301 and 314-324): every `last_*` field is overwritten from this
attempt. -/
def okFailState (config : ExtractionConfig) (o : TargetOracle) (attempt : Nat) (resp : Resp)
    (inTok outTok respMeta usageMeta : PyVal) (jsonErr : String) : LastState :=
  { errMsg := some ("Response was not valid JSON: " ++ jsonErr ++ ". Content preview: " ++
      previewOf (cleanResponseContent resp)),
    inTok := inTok,
    outTok := outTok,
    raw := payloadOf config o attempt resp respMeta usageMeta,
    cost := (costStats config o attempt respMeta).1 }

/-- Outcome of one iteration of the retry loop. -/
inductive StepOut where
  | done (r : ExtractionResult)
  | fail (st : LastState)

/-- One iteration of the retry loop (lines 268-330): invoke the model,
serialize it, parse token usage, fetch the cost, clean the content and
decode it as JSON. A transport error or a metadata `AttributeError` updates
only `last_error_msg`; a JSON decode failure first saves the attempt's
metadata; a decoded body returns the successful result. -/
def attemptStep (config : ExtractionConfig) (o : TargetOracle) (attempt : Nat)
    (st : LastState) : StepOut :=
  match o.invoke attempt with
  | .raiseErr e => .fail { st with errMsg := some ("Model invocation failed: " ++ e) }
  | .ok resp =>
    match parseTokenUsage resp resp.dictResult with
    | .error e => .fail { st with errMsg := some ("Model invocation failed: " ++ e) }
    | .ok (inTok, outTok, respMeta, usageMeta) =>
      let cost := (costStats config o attempt respMeta).1
      let contentStr := cleanResponseContent resp
      let payload := payloadOf config o attempt resp respMeta usageMeta
      match o.jsonParse contentStr with
      | .ok j =>
        .done { extracted_data := j, response_raw := payload, success := true,
                message := "Extraction successful", input_tokens := inTok,
                output_tokens := outTok, cost := cost }
      | .error e => .fail (okFailState config o attempt resp inTok outTok respMeta usageMeta e)

/-- Lines 338-347: the failure result built after the final attempt, from the
saved `last_*` state (with the truthiness-based message fallback). -/
def finalResult (maxRetries : Nat) (st : LastState) : ExtractionResult :=
  { extracted_data := PyVal.none,
    response_raw := st.raw,
    success := false,
    message :=
      match st.errMsg with
      | some m => if m.isEmpty then "Failed after " ++ toString maxRetries ++ " attempts" else m
      | Option.none => "Failed after " ++ toString maxRetries ++ " attempts",
    input_tokens := st.inTok,
    output_tokens := st.outTok,
    cost := st.cost }

/-- The retry loop (lines 268-347). `rem` is the number of attempts still
allowed after the current one; a failed attempt with attempts remaining
sleeps `min(2^(attempt-1), 8)` seconds and recurses. The returned trace
records the invocations and sleeps in order. -/
def retryLoop (config : ExtractionConfig) (o : TargetOracle) :
    Nat → Nat → LastState → ExtractionResult × List REvent
  | attempt, 0, st =>
    match attemptStep config o attempt st with
    | .done r => (r, [REvent.invoke attempt])
    | .fail st' => (finalResult (effMaxRetries config) st', [REvent.invoke attempt])
  | attempt, rem + 1, st =>
    match attemptStep config o attempt st with
    | .done r => (r, [REvent.invoke attempt])
    | .fail st' =>
      let p := retryLoop config o (attempt + 1) rem st'
      (p.1, REvent.invoke attempt :: REvent.sleep (min (2 ^ (attempt - 1)) 8) :: p.2)

/-- `extract_object(doc, object_to_extract, config)`: builds the messages and
the model client before the retry loop — a failure there (for example the
`ValueError` of `get_prompt` on an unrecognized variant) propagates to the
caller — then runs the retry loop, which always returns an
`ExtractionResult`. The second component is the trace of loop events. -/
def extractObject (doc : Document) (obj : ExtractableObject) (config : ExtractionConfig)
    (o : TargetOracle) : Except String ExtractionResult × List REvent :=
  match buildMessages doc obj config with
  | .error e => (.error e, [])
  | .ok _ =>
    let p := retryLoop config o 1 (effMaxRetries config - 1) {}
    (.ok p.1, p.2)

/-- The trace the spec prescribes for an all-failing run: invocations
1, 2, ..., with a backoff sleep between consecutive attempts and none after
the last. -/
def expectedFailTrace : Nat → Nat → List REvent
  | attempt, 0 => [REvent.invoke attempt]
  | attempt, rem + 1 =>
    REvent.invoke attempt :: REvent.sleep (min (2 ^ (attempt - 1)) 8) ::
      expectedFailTrace (attempt + 1) rem

/-- Number of model invocations in a trace. -/
def countInvokes (tr : List REvent) : Nat :=
  tr.countP (fun e => match e with | REvent.invoke _ => true | _ => false)

/-- Number of backoff sleeps in a trace. -/
def countSleeps (tr : List REvent) : Nat :=
  tr.countP (fun e => match e with | REvent.sleep _ => true | _ => false)

/-! ## ConcurrentDispatcher and ResultAggregator (`extract_objects`) -/

/-- Line 382-387: the result substituted by the dispatcher when a worker's
future re-raises an exception. -/
def failureResult (msg : String) : ExtractionResult :=
  { extracted_data := PyVal.none, response_raw := PyVal.none, success := false, message := msg }

/-- Line 364: `max_workers = max(1, int(objects_to_extract.config.parallel_requests or 1))`. -/
def maxWorkers (ote : ObjectsToExtract) : Nat :=
  (max 1 (if ote.config.parallel_requests = 0 then 1 else ote.config.parallel_requests)).toNat

/-- The `ExtractionResult` the dispatcher stores for the target at submission
index `i`: the worker's result, or the converted failure when the worker
raised (lines 375-387). -/
def outcomeRes (doc : Document) (ote : ObjectsToExtract) (oracles : Nat → TargetOracle)
    (obj : ExtractableObject) (i : Nat) : ExtractionResult :=
  match (extractObject doc obj ote.config (oracles i)).1 with
  | .ok r => r
  | .error e => failureResult e

/-- One fan-in step of the dispatcher loop: collect the future for submission
index `i` and store its result under the target's name. -/
def dispatchStep (doc : Document) (ote : ObjectsToExtract) (oracles : Nat → TargetOracle)
    (res : List (String × ExtractionResult)) (i : Nat) : List (String × ExtractionResult) :=
  match ote.objects[i]? with
  | Option.none => res
  | some obj => dictInsert obj.name (outcomeRes doc ote oracles obj i) res

/-- `extract_objects(doc, objects_to_extract)`: submit one `extract_object`
future per target (the collaborator for submission index `i` is `oracles i`),
collect them in completion order `order` (a scheduling-dependent permutation
of the submission indices), then aggregate: `success` is the conjunction over
all stored results, and `message` is set exactly when some extraction
failed. The `total_*` fields of `ExtractionResults` are left at their
defaults. -/
def extractObjects (doc : Document) (ote : ObjectsToExtract) (oracles : Nat → TargetOracle)
    (order : List Nat) : ExtractionResults :=
  let results := order.foldl (dispatchStep doc ote oracles) []
  let overallSuccess := results.all (fun p => p.2.success)
  { results := results,
    success := overallSuccess,
    message := if overallSuccess then Option.none else some "Some extractions failed" }

/-- A completion order the thread pool can produce: a permutation of the
submission indices; with a single worker the futures run sequentially, so
completion order equals submission order. -/
def validOrder (workers n : Nat) (order : List Nat) : Prop :=
  order.Perm (List.range n) ∧ (workers = 1 → order = List.range n)

/-- Content equality of two result sets: the same mapping from target names
to results, and the same aggregate fields. -/
def sameContents (a b : ExtractionResults) : Prop :=
  (∀ k, dlookup a.results k = dlookup b.results k) ∧
  a.success = b.success ∧ a.message = b.message ∧
  a.total_input_tokens = b.total_input_tokens ∧
  a.total_output_tokens = b.total_output_tokens ∧
  a.total_cost = b.total_cost

/-- The submission indices in `order` whose target is named `k`. -/
def hits (ote : ObjectsToExtract) (order : List Nat) (k : String) : List Nat :=
  order.filter (fun i =>
    match ote.objects[i]? with
    | some obj => obj.name = k
    | Option.none => false)

/-- The characters of the opening fence marker stripped first. -/
def fjson : List Char := "```json".data

/-- The characters of the bare fence marker stripped second. -/
def ticks3 : List Char := "```".data

/-! ## Failure-mode predicates used by the claims -/

/-- A model-invocation collaborator that fails on every call: each attempt
either raises, or returns a response whose cleaned content is not valid
JSON. -/
def attemptAlwaysFails (o : TargetOracle) : Prop :=
  ∀ a, match o.invoke a with
    | InvokeOutcome.raiseErr _ => True
    | InvokeOutcome.ok resp => ∃ e, o.jsonParse (cleanResponseContent resp) = .error e

/-- Whether an HTTP outcome is a 404 response (the only status the cost loop
retries on). -/
def is404B : CostHttp → Bool
  | .resp status _ _ => status == 404
  | _ => false

/-- The cost a single HTTP outcome would deliver: an OK response whose JSON
body carries a numeric `data.total_cost`, and nothing else. -/
def yieldsVal : CostHttp → Option Rat
  | .resp status (.ok g) _ => if respOkB status then extractCost g else Option.none
  | _ => Option.none

/-- A cost-lookup collaborator on which every reachable lookup attempt fails
to deliver a cost: for each k < 3, if all earlier attempts returned 404
(the only way attempt k+1 is reached), attempt k+1 delivers no cost —
it raises, returns a non-OK status, or returns a body without a numeric
total cost. -/
def neverYields (o : CostOracle) : Bool :=
  (List.range 3).all fun k =>
    !((List.range k).all fun j => is404B (o.http (j + 1))) ||
      (yieldsVal (o.http (k + 1))).isNone

/-- Agreement of two per-target results on everything the retry loop
controls: same success flag, message, extracted data and token counts (the
cost-enrichment fields `cost` and `response_raw` are exempt). -/
def resAgrees (a b : ExtractionResult) : Prop :=
  a.success = b.success ∧ a.message = b.message ∧ a.extracted_data = b.extracted_data ∧
    a.input_tokens = b.input_tokens ∧ a.output_tokens = b.output_tokens

/-- Agreement of two `extract_object` outcomes on everything the retry loop
controls: both raise identically, or both return results with the same
success flag, message, extracted data and token counts (the cost-enrichment
fields `cost` and `response_raw` are exempt). -/
def resultAgrees : Except String ExtractionResult → Except String ExtractionResult → Prop
  | .ok a, .ok b => resAgrees a b
  | .error e1, .error e2 => e1 = e2
  | _, _ => False

/-- Agreement of two saved retry-loop states on the fields the loop outcome
depends on (everything except the cost-derived `raw` and `cost`). -/
def stAgrees (s1 s2 : LastState) : Prop :=
  s1.errMsg = s2.errMsg ∧ s1.inTok = s2.inTok ∧ s1.outTok = s2.outTok

/-- Agreement of two retry-loop step outcomes: both succeed with agreeing
results, or both fail with agreeing saved states. -/
def stepAgrees : StepOut → StepOut → Prop
  | .done r1, .done r2 => resAgrees r1 r2
  | .fail s1, .fail s2 => stAgrees s1 s2
  | _, _ => False

/-! ## Concrete sample inputs

Small documents, targets, collaborator behaviours and schedules used to
evaluate the definitions on closed inputs. -/

/-- An empty sample document. -/
def exDoc : Document := {}

/-- A configuration with one attempt and no attachments. -/
def exCfg1 : ExtractionConfig := { max_retries := 1, file_input_modes := [] }

/-- A configuration with two attempts and no attachments. -/
def exCfg2 : ExtractionConfig := { max_retries := 2, file_input_modes := [] }

/-- A configuration with three attempts and no attachments. -/
def exCfg3 : ExtractionConfig := { max_retries := 3, file_input_modes := [] }

/-- A string target named `A`. -/
def exObjA : ExtractableObject := .str "A" "ex" "no instructions" true

/-- A second string target also named `A`. -/
def exObjA2 : ExtractableObject := .str "A" "other" "different instructions" true

/-- A string target named `B`. -/
def exObjB : ExtractableObject := .str "B" "ex" "no instructions" true

/-- A JSON-library behaviour decoding the digit strings used in the samples. -/
def exJsonParse : String → Except String PyVal := fun s =>
  if s = "1" then .ok (PyVal.int 1)
  else if s = "2" then .ok (PyVal.int 2)
  else if s = "7" then .ok (PyVal.int 7)
  else .error "Expecting value"

/-- A collaborator answering `1` on every attempt. -/
def exOracleOne : TargetOracle :=
  { invoke := fun _ => InvokeOutcome.ok { content := "1" }, jsonParse := exJsonParse }

/-- A collaborator answering `2` on every attempt. -/
def exOracleTwo : TargetOracle :=
  { invoke := fun _ => InvokeOutcome.ok { content := "2" }, jsonParse := exJsonParse }

/-- A collaborator whose invocation raises on every attempt. -/
def exOracleRaise : TargetOracle := { invoke := fun _ => InvokeOutcome.raiseErr "boom" }

/-- A response carrying usage metadata (5 input tokens, 7 output tokens)
whose content decodes to the number 7. -/
def exRespTokens : Resp :=
  { content := "7",
    usageMetaAttr := PyVal.dict [("input_tokens", PyVal.int 5), ("output_tokens", PyVal.int 7)] }

/-- A collaborator reporting token usage and valid JSON content. -/
def exOracleTokens : TargetOracle :=
  { invoke := fun _ => InvokeOutcome.ok exRespTokens, jsonParse := exJsonParse }

/-- A collaborator that yields a response with usage metadata and
undecodable content on attempt 1 and raises on every later attempt. -/
def exOracleMetaThenRaise : TargetOracle :=
  { invoke := fun a =>
      if a = 1 then
        InvokeOutcome.ok
          { content := "oops",
            usageMetaAttr :=
              PyVal.dict [("input_tokens", PyVal.int 5), ("output_tokens", PyVal.int 7)] }
      else InvokeOutcome.raiseErr "boom" }

/-- A collaborator that raises on attempt 1 and yields a response with usage
metadata and undecodable content from attempt 2 on. -/
def exOracleRaiseThenMeta : TargetOracle :=
  { invoke := fun a =>
      if a = 1 then InvokeOutcome.raiseErr "boom"
      else
        InvokeOutcome.ok
          { content := "oops",
            usageMetaAttr :=
              PyVal.dict [("input_tokens", PyVal.int 5), ("output_tokens", PyVal.int 7)] } }

/-- A cost-lookup collaborator answering 500 with an empty JSON body on
every attempt. -/
def exCost500 : CostOracle :=
  { http := fun _ => CostHttp.resp 500 (.ok (PyVal.dict [])) "internal error" }

/-! ## Helper lemmas about Python dict operations -/

theorem dlookup_dictInsert_self {α : Type} (k : String) (v : α) (l : List (String × α)) :
    dlookup (dictInsert k v l) k = some v := by
  induction l with
  | nil => simp [dictInsert, dlookup]
  | cons p rest ih =>
    by_cases h : p.1 = k
    · simp [dictInsert, h, dlookup]
    · simp [dictInsert, h, dlookup, ih]

theorem dlookup_dictInsert_ne {α : Type} {k k' : String} (v : α) (l : List (String × α))
    (h : k' ≠ k) : dlookup (dictInsert k v l) k' = dlookup l k' := by
  induction l with
  | nil => simp [dictInsert, dlookup, Ne.symm h]
  | cons p rest ih =>
    by_cases hp : p.1 = k
    · simp [dictInsert, hp, dlookup, Ne.symm h]
    · simp [dictInsert, hp, dlookup, ih]

theorem mem_dictKeys_dictInsert {α : Type} (a k : String) (v : α) (l : List (String × α)) :
    a ∈ dictKeys (dictInsert k v l) ↔ a = k ∨ a ∈ dictKeys l := by
  induction l with
  | nil => simp [dictInsert, dictKeys]
  | cons p rest ih =>
    by_cases h : p.1 = k
    · subst h
      have he : dictInsert p.1 v (p :: rest) = (p.1, v) :: rest := by simp [dictInsert]
      rw [he]
      simp only [dictKeys, List.map_cons, List.mem_cons]
      tauto
    · simp only [dictInsert, h, if_false, dictKeys, List.map_cons, List.mem_cons] at ih ⊢
      tauto

theorem nodup_dictKeys_dictInsert {α : Type} (k : String) (v : α) (l : List (String × α))
    (h : (dictKeys l).Nodup) : (dictKeys (dictInsert k v l)).Nodup := by
  induction l with
  | nil => simp [dictInsert, dictKeys]
  | cons p rest ih =>
    simp only [dictKeys, List.map_cons, List.nodup_cons] at h
    obtain ⟨h1, h2⟩ := h
    by_cases hp : p.1 = k
    · have he : dictInsert k v (p :: rest) = (k, v) :: rest := by simp [dictInsert, hp]
      rw [he]
      simp only [dictKeys, List.map_cons, List.nodup_cons]
      exact ⟨hp ▸ h1, h2⟩
    · have ih' := ih h2
      simp only [dictInsert, hp, if_false, dictKeys, List.map_cons, List.nodup_cons]
      refine ⟨?_, ih'⟩
      rw [show List.map Prod.fst (dictInsert k v rest) = dictKeys (dictInsert k v rest) from rfl,
        mem_dictKeys_dictInsert]
      rintro (rfl | hmem)
      · exact hp rfl
      · exact h1 hmem

theorem dlookup_eq_none_iff {α : Type} (l : List (String × α)) (k : String) :
    dlookup l k = Option.none ↔ k ∉ dictKeys l := by
  induction l with
  | nil => simp [dlookup, dictKeys]
  | cons p rest ih =>
    by_cases h : p.1 = k
    · simp [dlookup, h, dictKeys]
    · simp [dlookup, h, dictKeys, ih, Ne.symm h]

theorem mem_iff_dlookup {α : Type} (l : List (String × α)) (p : String × α)
    (h : (dictKeys l).Nodup) : p ∈ l ↔ dlookup l p.1 = some p.2 := by
  induction l with
  | nil => simp [dlookup]
  | cons q rest ih =>
    simp only [dictKeys, List.map_cons, List.nodup_cons] at h
    obtain ⟨h1, h2⟩ := h
    by_cases hq : q.1 = p.1
    · constructor
      · intro hmem
        rcases List.mem_cons.mp hmem with rfl | hmem
        · simp [dlookup]
        · exact absurd (hq ▸ List.mem_map.mpr ⟨p, hmem, rfl⟩) h1
      · intro hl
        simp only [dlookup, hq, if_true] at hl
        have : q = p := Prod.ext_iff.mpr ⟨hq, by injection hl⟩
        simp [this]
    · rw [List.mem_cons, ih h2]
      simp only [dlookup, hq, if_false]
      constructor
      · rintro (rfl | hl)
        · exact absurd rfl hq
        · exact hl
      · exact Or.inr

theorem getLastQ_cons_of_ne_nil {α : Type} (a : α) (l : List α) (h : l ≠ []) :
    (a :: l).getLast? = l.getLast? := by
  cases l with
  | nil => exact absurd rfl h
  | cons b t => simp [List.getLast?_cons_cons]

/-- Master characterization of the dispatcher fold: the stored result for a
name is determined by the last completed submission index bearing that name. -/
theorem dlookup_dispatch_foldl (doc : Document) (ote : ObjectsToExtract)
    (oracles : Nat → TargetOracle) (order : List Nat) (acc : List (String × ExtractionResult))
    (k : String) :
    dlookup (order.foldl (dispatchStep doc ote oracles) acc) k =
      match (hits ote order k).getLast? with
      | some i => (ote.objects[i]?).map (fun obj => outcomeRes doc ote oracles obj i)
      | Option.none => dlookup acc k := by
  induction order generalizing acc with
  | nil => simp [hits]
  | cons i rest ih =>
    rw [List.foldl_cons, ih]
    have hfilter : hits ote (i :: rest) k =
        if (match ote.objects[i]? with
            | some obj => obj.name = k
            | Option.none => false : Bool) then i :: hits ote rest k else hits ote rest k := by
      simp [hits, List.filter_cons]
    by_cases hpred : (match ote.objects[i]? with
        | some obj => obj.name = k
        | Option.none => false : Bool) = true
    · rw [hfilter, if_pos hpred]
      cases hrest : (hits ote rest k).getLast? with
      | some j =>
        have hne : hits ote rest k ≠ [] := by
          intro hnil
          rw [hnil] at hrest
          simp at hrest
        rw [getLastQ_cons_of_ne_nil _ _ hne, hrest]
      | none =>
        rw [List.getLast?_eq_none_iff.mp hrest]
        simp only [List.getLast?_singleton]
        cases hobj : ote.objects[i]? with
        | none => rw [hobj] at hpred; simp at hpred
        | some obj =>
          rw [hobj] at hpred
          simp only [decide_eq_true_eq] at hpred
          simp [dispatchStep, hobj, Option.map, hpred, dlookup_dictInsert_self]
    · rw [hfilter, if_neg hpred]
      cases hrest : (hits ote rest k).getLast? with
      | some j => rfl
      | none =>
        cases hobj : ote.objects[i]? with
        | none => simp [dispatchStep, hobj]
        | some obj =>
          rw [hobj] at hpred
          simp only [decide_eq_true_eq] at hpred
          simp [dispatchStep, hobj, dlookup_dictInsert_ne _ _ (Ne.symm hpred)]

theorem nodup_dictKeys_dispatch (doc : Document) (ote : ObjectsToExtract)
    (oracles : Nat → TargetOracle) (order : List Nat) (acc : List (String × ExtractionResult))
    (hacc : (dictKeys acc).Nodup) :
    (dictKeys (order.foldl (dispatchStep doc ote oracles) acc)).Nodup := by
  induction order generalizing acc with
  | nil => exact hacc
  | cons i rest ih =>
    rw [List.foldl_cons]
    apply ih
    cases hobj : ote.objects[i]? with
    | none => simpa [dispatchStep, hobj] using hacc
    | some obj =>
      simp only [dispatchStep, hobj]
      exact nodup_dictKeys_dictInsert _ _ _ hacc

theorem mem_hits_iff (ote : ObjectsToExtract) (order : List Nat) (k : String) (i : Nat) :
    i ∈ hits ote order k ↔
      i ∈ order ∧ ∃ obj, ote.objects[i]? = some obj ∧ obj.name = k := by
  simp only [hits, List.mem_filter]
  constructor
  · rintro ⟨hmem, hpred⟩
    refine ⟨hmem, ?_⟩
    cases hobj : ote.objects[i]? with
    | none => rw [hobj] at hpred; simp at hpred
    | some obj =>
      rw [hobj] at hpred
      simp only [decide_eq_true_eq] at hpred
      exact ⟨obj, rfl, hpred⟩
  · rintro ⟨hmem, obj, hobj, hname⟩
    exact ⟨hmem, by simp [hobj, hname]⟩

theorem hits_ne_nil_iff (ote : ObjectsToExtract) (order : List Nat) (k : String) :
    hits ote order k ≠ [] ↔
      ∃ i ∈ order, ∃ obj, ote.objects[i]? = some obj ∧ obj.name = k := by
  constructor
  · intro h
    rcases List.exists_mem_of_ne_nil _ h with ⟨i, hi⟩
    rcases (mem_hits_iff ote order k i).mp hi with ⟨hmem, obj, hobj, hname⟩
    exact ⟨i, hmem, obj, hobj, hname⟩
  · rintro ⟨i, hmem, obj, hobj, hname⟩
    intro hnil
    have : i ∈ hits ote order k := (mem_hits_iff ote order k i).mpr ⟨hmem, obj, hobj, hname⟩
    rw [hnil] at this
    exact absurd this (List.not_mem_nil i)

theorem dlookup_dispatch_eq_none_iff (doc : Document) (ote : ObjectsToExtract)
    (oracles : Nat → TargetOracle) (order : List Nat) (k : String) :
    dlookup (extractObjects doc ote oracles order).results k = Option.none ↔
      hits ote order k = [] := by
  show dlookup (order.foldl (dispatchStep doc ote oracles) []) k = Option.none ↔ _
  rw [dlookup_dispatch_foldl]
  cases hlast : (hits ote order k).getLast? with
  | none => simp [dlookup, List.getLast?_eq_none_iff.mp hlast]
  | some i =>
    have hi : i ∈ hits ote order k := List.mem_of_getLast?_eq_some hlast
    rcases (mem_hits_iff ote order k i).mp hi with ⟨_, obj, hobj, _⟩
    constructor
    · intro hnone
      simp [hobj] at hnone
    · intro hnil
      rw [hnil] at hlast
      simp at hlast

theorem mem_dictKeys_dispatch_iff (doc : Document) (ote : ObjectsToExtract)
    (oracles : Nat → TargetOracle) (order : List Nat)
    (hperm : order.Perm (List.range ote.objects.length)) (k : String) :
    k ∈ dictKeys (extractObjects doc ote oracles order).results ↔
      k ∈ ote.objects.map ExtractableObject.name := by
  rw [← not_iff_not]
  rw [← dlookup_eq_none_iff, dlookup_dispatch_eq_none_iff]
  constructor
  · intro hnil
    intro hmap
    rcases List.mem_map.mp hmap with ⟨obj, hobjmem, hname⟩
    rcases List.mem_iff_getElem?.mp hobjmem with ⟨i, hobj⟩
    have hilt : i < ote.objects.length := by
      by_contra hge
      rw [List.getElem?_eq_none (Nat.le_of_not_lt hge)] at hobj
      exact Option.noConfusion hobj
    have hio : i ∈ order := hperm.mem_iff.mpr (List.mem_range.mpr hilt)
    exact (hits_ne_nil_iff ote order k).mpr ⟨i, hio, obj, hobj, hname⟩ hnil
  · intro hnot
    by_contra hne
    rcases (hits_ne_nil_iff ote order k).mp hne with ⟨i, _, obj, hobj, hname⟩
    exact hnot (List.mem_map.mpr ⟨obj, List.getElem?_mem hobj, hname⟩)

/-- Claim C1: the key set of the result set of `extract_objects` equals the
set of input target names exactly, and with pairwise-distinct names the
result set has exactly one entry per input target. -/
theorem c1_result_keys_match_targets (doc : Document) (ote : ObjectsToExtract)
    (oracles : Nat → TargetOracle) (order : List Nat)
    (hperm : order.Perm (List.range ote.objects.length)) :
    (∀ k, k ∈ dictKeys (extractObjects doc ote oracles order).results ↔
        k ∈ ote.objects.map ExtractableObject.name) ∧
    ((ote.objects.map ExtractableObject.name).Nodup →
      (extractObjects doc ote oracles order).results.length = ote.objects.length) := by
  have hmem := mem_dictKeys_dispatch_iff doc ote oracles order hperm
  refine ⟨hmem, fun hnodup => ?_⟩
  have hkeysnodup : (dictKeys (extractObjects doc ote oracles order).results).Nodup :=
    nodup_dictKeys_dispatch doc ote oracles order [] (by simp [dictKeys])
  have hp : (dictKeys (extractObjects doc ote oracles order).results).Perm
      (ote.objects.map ExtractableObject.name) :=
    (List.perm_ext_iff_of_nodup hkeysnodup hnodup).mpr hmem
  have := hp.length_eq
  rw [List.length_map] at this
  simpa [dictKeys, List.length_map] using this

/-- Witness for C1 at a concrete input: two distinct targets collected in
reversed completion order give exactly the two names as keys. -/
theorem c1_result_keys_match_targets_witness :
    ("A" ∈ dictKeys (extractObjects exDoc ⟨[exObjA, exObjB], exCfg1⟩ (fun _ => exOracleOne)
        [1, 0]).results ↔
      "A" ∈ [exObjA, exObjB].map ExtractableObject.name) ∧
    (extractObjects exDoc ⟨[exObjA, exObjB], exCfg1⟩ (fun _ => exOracleOne) [1, 0]).results.length
      = 2 := by
  have hperm : ([1, 0] : List Nat).Perm (List.range 2) := by decide
  exact ⟨(c1_result_keys_match_targets exDoc ⟨[exObjA, exObjB], exCfg1⟩ (fun _ => exOracleOne)
      [1, 0] hperm).1 "A",
    (c1_result_keys_match_targets exDoc ⟨[exObjA, exObjB], exCfg1⟩ (fun _ => exOracleOne)
      [1, 0] hperm).2 (by decide)⟩

/-- Claim C8: the set-level `success` flag of `extract_objects` is true
exactly when every stored per-target result succeeded, and `message` is
non-null (the generic summary) exactly when some stored result failed. -/
theorem c8_aggregate_success_iff (doc : Document) (ote : ObjectsToExtract)
    (oracles : Nat → TargetOracle) (order : List Nat) :
    ((extractObjects doc ote oracles order).success = true ↔
      ∀ p ∈ (extractObjects doc ote oracles order).results, p.2.success = true) ∧
    ((extractObjects doc ote oracles order).message ≠ Option.none ↔
      ∃ p ∈ (extractObjects doc ote oracles order).results, p.2.success = false) ∧
    ((extractObjects doc ote oracles order).success = false →
      (extractObjects doc ote oracles order).message = some "Some extractions failed") := by
  set l := order.foldl (dispatchStep doc ote oracles) [] with hl
  have hres : extractObjects doc ote oracles order =
      { results := l, success := l.all (fun p => p.2.success),
        message := if l.all (fun p => p.2.success) then Option.none
          else some "Some extractions failed" } := rfl
  rw [hres]
  refine ⟨List.all_eq_true, ?_, ?_⟩
  · show ((if l.all (fun p => p.2.success) then Option.none
      else some "Some extractions failed") ≠ Option.none ↔ _)
    by_cases hall : l.all (fun p => p.2.success) = true
    · rw [if_pos hall]
      rw [List.all_eq_true] at hall
      simp only [ne_eq, not_true_eq_false, false_iff, not_exists]
      rintro p ⟨hp, hfail⟩
      rw [hall p hp] at hfail
      exact Bool.noConfusion hfail
    · have hfalse := Bool.eq_false_iff.mpr hall
      rw [if_neg (by rw [hfalse]; exact Bool.noConfusion)]
      rw [List.all_eq_false] at hfalse
      simpa using hfalse
  · show (l.all (fun p => p.2.success) = false → _)
    intro hfalse
    show (if l.all (fun p => p.2.success) then Option.none
      else some "Some extractions failed") = some "Some extractions failed"
    rw [hfalse]
    simp

/-- Claim C3 (code bug evidence): a run whose single target succeeds and
reports 5 input and 7 output tokens still yields `total_input_tokens`,
`total_output_tokens` and `total_cost` equal to null — `extract_objects`
never populates the totals, while the claim requires them to be the sums
over the reporting results (here 5 and 7). -/
theorem c3_totals_never_populated :
    ((dlookup (extractObjects exDoc ⟨[exObjA], exCfg1⟩ (fun _ => exOracleTokens) [0]).results
        "A").map (fun r => (r.success, r.input_tokens, r.output_tokens)) =
      some (true, PyVal.int 5, PyVal.int 7)) ∧
    (extractObjects exDoc ⟨[exObjA], exCfg1⟩ (fun _ => exOracleTokens) [0]).total_input_tokens
      = Option.none ∧
    (extractObjects exDoc ⟨[exObjA], exCfg1⟩ (fun _ => exOracleTokens) [0]).total_output_tokens
      = Option.none ∧
    (extractObjects exDoc ⟨[exObjA], exCfg1⟩ (fun _ => exOracleTokens) [0]).total_cost
      = Option.none := by
  refine ⟨?_, rfl, rfl, rfl⟩
  rfl

/-- Claim C4 (counterexample): for an unrecognized target variant,
`extract_object` does not return an `ExtractionResult` — the request-build
failure propagates out of it as a raised `ValueError`. -/
theorem c4_unknown_variant_raises :
    (extractObject exDoc (.unknown "T" "SomeType") exCfg1 exOracleOne).1 =
      Except.error "Unknown object type: SomeType" := by
  rfl

theorem name_index_inj (ote : ObjectsToExtract)
    (hnodup : (ote.objects.map ExtractableObject.name).Nodup) {i j : Nat}
    {obj obj' : ExtractableObject} (hi : ote.objects[i]? = some obj)
    (hj : ote.objects[j]? = some obj') (hname : obj.name = obj'.name) : i = j := by
  have hilt : i < ote.objects.length := by
    by_contra hge
    rw [List.getElem?_eq_none (Nat.le_of_not_lt hge)] at hi
    exact Option.noConfusion hi
  have hjlt : j < ote.objects.length := by
    by_contra hge
    rw [List.getElem?_eq_none (Nat.le_of_not_lt hge)] at hj
    exact Option.noConfusion hj
  have hilt' : i < (ote.objects.map ExtractableObject.name).length := by simpa using hilt
  have hjlt' : j < (ote.objects.map ExtractableObject.name).length := by simpa using hjlt
  have hig : ote.objects[i] = obj := by
    have := List.getElem?_eq_getElem hilt
    rw [hi] at this
    exact (Option.some.injEq _ _ ▸ this).symm
  have hjg : ote.objects[j] = obj' := by
    have := List.getElem?_eq_getElem hjlt
    rw [hj] at this
    exact (Option.some.injEq _ _ ▸ this).symm
  have heq : (ote.objects.map ExtractableObject.name)[i] =
      (ote.objects.map ExtractableObject.name)[j] := by
    simp [List.getElem_map, hig, hjg, hname]
  exact (hnodup.getElem_inj_iff).mp heq

theorem hits_eq_singleton (ote : ObjectsToExtract) (order : List Nat) {i : Nat}
    {obj : ExtractableObject} (hnodup : (ote.objects.map ExtractableObject.name).Nodup)
    (horder : order.Nodup) (hobj : ote.objects[i]? = some obj) (hmem : i ∈ order) :
    hits ote order obj.name = [i] := by
  have hone : ∀ j ∈ hits ote order obj.name, j = i := by
    intro j hj
    rcases (mem_hits_iff ote order obj.name j).mp hj with ⟨_, obj', hobj', hname'⟩
    exact name_index_inj ote hnodup hobj' hobj hname'
  have hiin : i ∈ hits ote order obj.name :=
    (mem_hits_iff ote order obj.name i).mpr ⟨hmem, obj, hobj, rfl⟩
  have hhn : (hits ote order obj.name).Nodup := List.Nodup.filter _ horder
  cases hh : hits ote order obj.name with
  | nil => rw [hh] at hiin; exact absurd hiin (List.not_mem_nil i)
  | cons a t =>
    rw [hh] at hone hiin hhn
    have ha : a = i := hone a (List.mem_cons_self a t)
    subst ha
    cases ht : t with
    | nil => rfl
    | cons b t' =>
      rw [ht] at hone hhn
      have hb : b = a := hone b (List.mem_cons.mpr (Or.inr (List.mem_cons_self b t')))
      subst hb
      rw [List.nodup_cons] at hhn
      exact absurd (List.mem_cons_self b t') hhn.1

theorem buildMessages_known_isOk (doc : Document) (obj : ExtractableObject)
    (config : ExtractionConfig) (h : obj.isKnownVariant = true) :
    ∃ m, buildMessages doc obj config = .ok m := by
  cases obj with
  | table n cols ex instr req => exact ⟨_, rfl⟩
  | str n ex instr req => exact ⟨_, rfl⟩
  | unknown n ty => exact absurd h (by simp [ExtractableObject.isKnownVariant])

theorem extractObject_known_isOk (doc : Document) (obj : ExtractableObject)
    (config : ExtractionConfig) (o : TargetOracle) (h : obj.isKnownVariant = true) :
    ∃ r, (extractObject doc obj config o).1 = .ok r := by
  rcases buildMessages_known_isOk doc obj config h with ⟨m, hm⟩
  refine ⟨(retryLoop config o 1 (effMaxRetries config - 1) {}).1, ?_⟩
  simp [extractObject, hm]

/-- Claim C4 (amended): failures inside a target's invoke/parse cycle are
converted to an `ExtractionResult` inside `extract_object` (for the declared
target variants it always returns a result), while a request-build failure
such as an unrecognized variant raises out of `extract_object`; the
dispatcher catches any per-target fault, converts it to a failed
`ExtractionResult` under that target's name, and always delivers a complete
result set. -/
theorem c4_faults_converted_at_dispatcher (doc : Document) (ote : ObjectsToExtract)
    (oracles : Nat → TargetOracle) (order : List Nat)
    (hperm : order.Perm (List.range ote.objects.length)) :
    (∀ (doc' : Document) (obj : ExtractableObject) (cfg : ExtractionConfig) (o : TargetOracle),
      obj.isKnownVariant = true → ∃ r, (extractObject doc' obj cfg o).1 = .ok r) ∧
    (∀ k, k ∈ ote.objects.map ExtractableObject.name →
      k ∈ dictKeys (extractObjects doc ote oracles order).results) ∧
    (∀ (i : Nat) (obj : ExtractableObject) (e : String),
      ote.objects[i]? = some obj → (ote.objects.map ExtractableObject.name).Nodup →
      (extractObject doc obj ote.config (oracles i)).1 = .error e →
      dlookup (extractObjects doc ote oracles order).results obj.name =
        some (failureResult e)) := by
  refine ⟨fun doc' obj cfg o h => extractObject_known_isOk doc' obj cfg o h, ?_, ?_⟩
  · intro k hk
    exact (mem_dictKeys_dispatch_iff doc ote oracles order hperm k).mpr hk
  · intro i obj e hobj hnodup herr
    have hilt : i < ote.objects.length := by
      by_contra hge
      rw [List.getElem?_eq_none (Nat.le_of_not_lt hge)] at hobj
      exact Option.noConfusion hobj
    have hmem : i ∈ order := hperm.mem_iff.mpr (List.mem_range.mpr hilt)
    have horder : order.Nodup := hperm.nodup_iff.mpr (List.nodup_range _)
    have hsing := hits_eq_singleton ote order hnodup horder hobj hmem
    show dlookup (order.foldl (dispatchStep doc ote oracles) []) obj.name = _
    rw [dlookup_dispatch_foldl, hsing]
    simp only [List.getLast?_singleton, hobj, Option.map]
    simp [outcomeRes, herr]

/-- Witness for the amended C4 at a concrete input: the declared-variant
target returns a result, and the unknown-variant target's raised fault is
converted by the dispatcher into a failed result stored under its name. -/
theorem c4_faults_converted_at_dispatcher_witness :
    (∃ r, (extractObject exDoc exObjA exCfg1 exOracleOne).1 = .ok r) ∧
    dlookup (extractObjects exDoc ⟨[exObjA, ExtractableObject.unknown "B" "Foo"], exCfg1⟩
        (fun i => if i = 0 then exOracleOne else exOracleRaise) [0, 1]).results "B" =
      some (failureResult "Unknown object type: Foo") := by
  have hperm : ([0, 1] : List Nat).Perm (List.range 2) := by decide
  exact ⟨(c4_faults_converted_at_dispatcher exDoc
      ⟨[exObjA, ExtractableObject.unknown "B" "Foo"], exCfg1⟩
      (fun i => if i = 0 then exOracleOne else exOracleRaise) [0, 1] hperm).1
      exDoc exObjA exCfg1 exOracleOne rfl,
    (c4_faults_converted_at_dispatcher exDoc
      ⟨[exObjA, ExtractableObject.unknown "B" "Foo"], exCfg1⟩
      (fun i => if i = 0 then exOracleOne else exOracleRaise) [0, 1] hperm).2.2
      1 (ExtractableObject.unknown "B" "Foo") "Unknown object type: Foo" rfl (by decide) rfl⟩

theorem attemptStep_fails_of_alwaysFails (config : ExtractionConfig) (o : TargetOracle)
    (hfail : attemptAlwaysFails o) (a : Nat) (st : LastState) :
    ∃ st', attemptStep config o a st = .fail st' := by
  have h := hfail a
  cases hs : attemptStep config o a st with
  | fail st' => exact ⟨st', rfl⟩
  | done r =>
    exfalso
    cases hi : o.invoke a with
    | raiseErr e => simp [attemptStep, hi] at hs
    | ok resp =>
      rw [hi] at h
      rcases h with ⟨e, he⟩
      cases hp : parseTokenUsage resp resp.dictResult with
      | error e' => simp [attemptStep, hi, hp] at hs
      | ok val =>
        obtain ⟨it, ot, rm, um⟩ := val
        simp [attemptStep, hi, hp, he] at hs

theorem retryLoop_all_fail (config : ExtractionConfig) (o : TargetOracle)
    (hfail : ∀ a st, ∃ st', attemptStep config o a st = .fail st') :
    ∀ (rem attempt : Nat) (st : LastState),
      (retryLoop config o attempt rem st).1.success = false ∧
      (retryLoop config o attempt rem st).2 = expectedFailTrace attempt rem := by
  intro rem
  induction rem with
  | zero =>
    intro attempt st
    obtain ⟨st', hst⟩ := hfail attempt st
    simp [retryLoop, hst, finalResult, expectedFailTrace]
  | succ rem ih =>
    intro attempt st
    obtain ⟨st', hst⟩ := hfail attempt st
    have := ih (attempt + 1) st'
    simp only [retryLoop, hst, expectedFailTrace]
    exact ⟨this.1, by rw [this.2]⟩

theorem countInvokes_expectedFailTrace : ∀ (rem a : Nat),
    countInvokes (expectedFailTrace a rem) = rem + 1 := by
  intro rem
  induction rem with
  | zero => intro a; simp [expectedFailTrace, countInvokes]
  | succ rem ih =>
    intro a
    simp only [expectedFailTrace, countInvokes, List.countP_cons]
    have := ih (a + 1)
    simp only [countInvokes] at this
    simp [this]

theorem countSleeps_expectedFailTrace : ∀ (rem a : Nat),
    countSleeps (expectedFailTrace a rem) = rem := by
  intro rem
  induction rem with
  | zero => intro a; simp [expectedFailTrace, countSleeps]
  | succ rem ih =>
    intro a
    simp only [expectedFailTrace, countSleeps, List.countP_cons]
    have := ih (a + 1)
    simp only [countSleeps] at this
    simp [this]

theorem getLastQ_expectedFailTrace : ∀ (rem a : Nat),
    (expectedFailTrace a rem).getLast? = some (REvent.invoke (a + rem)) := by
  intro rem
  induction rem with
  | zero => intro a; simp [expectedFailTrace]
  | succ rem ih =>
    intro a
    simp only [expectedFailTrace, List.getLast?_cons_cons]
    have hne : expectedFailTrace (a + 1) rem ≠ [] := by
      cases rem <;> simp [expectedFailTrace]
    rw [getLastQ_cons_of_ne_nil _ _ hne, ih (a + 1)]
    have harith : a + 1 + rem = a + (rem + 1) := by omega
    rw [harith]

theorem effMaxRetries_eq (config : ExtractionConfig) (R : Nat)
    (h : config.max_retries = (R : Int)) (hR : 1 ≤ R) : effMaxRetries config = R := by
  have hne : ¬((R : Int) = 0) := by omega
  simp only [effMaxRetries, h]
  rw [if_neg hne, max_eq_right (by exact_mod_cast hR : (1 : Int) ≤ (R : Int)), Int.toNat_natCast]

/-- Claim C2: with `max_retries = R` (R >= 1) and a model-invocation
collaborator failing on every call, `extract_object` makes exactly R
invocations — not R+1 — with a backoff sleep between consecutive attempts
and none after the last, and returns an `ExtractionResult` with
`success = false`. -/
theorem c2_exactly_R_attempts (doc : Document) (obj : ExtractableObject)
    (config : ExtractionConfig) (o : TargetOracle) (R : Nat)
    (hknown : obj.isKnownVariant = true) (hR : config.max_retries = (R : Int))
    (hR1 : 1 ≤ R) (hfail : attemptAlwaysFails o) :
    (∃ r, (extractObject doc obj config o).1 = .ok r ∧ r.success = false) ∧
    (extractObject doc obj config o).2 = expectedFailTrace 1 (R - 1) ∧
    countInvokes (extractObject doc obj config o).2 = R ∧
    countSleeps (extractObject doc obj config o).2 = R - 1 ∧
    (extractObject doc obj config o).2.getLast? = some (REvent.invoke R) := by
  rcases buildMessages_known_isOk doc obj config hknown with ⟨m, hm⟩
  have heff := effMaxRetries_eq config R hR hR1
  have hloop := retryLoop_all_fail config o
    (attemptStep_fails_of_alwaysFails config o hfail) (effMaxRetries config - 1) 1 {}
  have hobj1 : (extractObject doc obj config o).1 =
      .ok (retryLoop config o 1 (effMaxRetries config - 1) {}).1 := by
    simp [extractObject, hm]
  have hobj2 : (extractObject doc obj config o).2 =
      (retryLoop config o 1 (effMaxRetries config - 1) {}).2 := by
    simp [extractObject, hm]
  rw [heff] at hloop
  rw [hobj1, hobj2, heff]
  refine ⟨⟨_, rfl, hloop.1⟩, hloop.2, ?_, ?_, ?_⟩
  · rw [hloop.2, countInvokes_expectedFailTrace]
    omega
  · rw [hloop.2, countSleeps_expectedFailTrace]
  · rw [hloop.2, getLastQ_expectedFailTrace]
    have harith : 1 + (R - 1) = R := by omega
    rw [harith]

/-- Witness for C2 at a concrete input: an always-raising collaborator with
`max_retries = 3` produces exactly three invocations with two interleaved
sleeps and a failed result. -/
theorem c2_exactly_R_attempts_witness :
    (∃ r, (extractObject exDoc exObjA exCfg3 exOracleRaise).1 = .ok r ∧ r.success = false) ∧
    (extractObject exDoc exObjA exCfg3 exOracleRaise).2 = expectedFailTrace 1 2 ∧
    countInvokes (extractObject exDoc exObjA exCfg3 exOracleRaise).2 = 3 ∧
    countSleeps (extractObject exDoc exObjA exCfg3 exOracleRaise).2 = 2 ∧
    (extractObject exDoc exObjA exCfg3 exOracleRaise).2.getLast? = some (REvent.invoke 3) :=
  c2_exactly_R_attempts exDoc exObjA exCfg3 exOracleRaise 3 rfl rfl (by decide)
    (fun a => by simp [exOracleRaise])

/-- Claim C6 (counterexample): with two attempts, a first attempt that
yields a response reporting 5/7 tokens but undecodable content, and a final
attempt that raises before obtaining any response, the failed result still
carries the first attempt's tokens — not the metadata obtained on the last
attempt (which obtained none). -/
theorem c6_last_attempt_metadata_counterexample :
    ((extractObject exDoc exObjA exCfg2 exOracleMetaThenRaise).1.map
        (fun r => (r.success, r.input_tokens, r.output_tokens))) =
      Except.ok (false, PyVal.int 5, PyVal.int 7) ∧
    exOracleMetaThenRaise.invoke 2 = InvokeOutcome.raiseErr "boom" ∧
    effMaxRetries exCfg2 = 2 := by
  exact ⟨rfl, rfl, rfl⟩

theorem retryLoop_final_metadata (config : ExtractionConfig) (o : TargetOracle)
    (hfail : ∀ a st, ∃ st', attemptStep config o a st = .fail st')
    (R : Nat) (resp : Resp) (it ot rm um : PyVal) (jerr : String)
    (hinv : o.invoke R = InvokeOutcome.ok resp)
    (hparse : parseTokenUsage resp resp.dictResult = .ok (it, ot, rm, um))
    (hjson : o.jsonParse (cleanResponseContent resp) = .error jerr) :
    ∀ (rem attempt : Nat) (st : LastState), attempt + rem = R →
      (retryLoop config o attempt rem st).1 =
        finalResult (effMaxRetries config) (okFailState config o R resp it ot rm um jerr) := by
  intro rem
  induction rem with
  | zero =>
    intro attempt st h0
    have ha : attempt = R := by omega
    subst ha
    have hstep : attemptStep config o attempt st =
        .fail (okFailState config o attempt resp it ot rm um jerr) := by
      simp [attemptStep, hinv, hparse, hjson]
    simp [retryLoop, hstep]
  | succ rem ih =>
    intro attempt st hsum
    obtain ⟨st', hst⟩ := hfail attempt st
    simp only [retryLoop, hst]
    exact ih (attempt + 1) st' (by omega)

/-- Claim C6 (amended): when the final attempt itself yields a model
response (whose token metadata parses) and fails only at JSON decoding, the
failed result carries exactly that final attempt's diagnostic metadata —
tokens, raw payload and cost; attempts that raise before obtaining a
response leave the previously saved metadata in place instead. -/
theorem c6_final_response_metadata_retained (doc : Document) (obj : ExtractableObject)
    (config : ExtractionConfig) (o : TargetOracle) (R : Nat) (resp : Resp)
    (it ot rm um : PyVal) (jerr : String)
    (hknown : obj.isKnownVariant = true) (hR : config.max_retries = (R : Int)) (hR1 : 1 ≤ R)
    (hfail : attemptAlwaysFails o)
    (hinv : o.invoke R = InvokeOutcome.ok resp)
    (hparse : parseTokenUsage resp resp.dictResult = .ok (it, ot, rm, um))
    (hjson : o.jsonParse (cleanResponseContent resp) = .error jerr) :
    ∃ r, (extractObject doc obj config o).1 = .ok r ∧ r.success = false ∧
      r.input_tokens = it ∧ r.output_tokens = ot ∧
      r.cost = (costStats config o R rm).1 ∧
      r.response_raw = payloadOf config o R resp rm um := by
  rcases buildMessages_known_isOk doc obj config hknown with ⟨m, hm⟩
  have heff := effMaxRetries_eq config R hR hR1
  have hloop := retryLoop_final_metadata config o
    (attemptStep_fails_of_alwaysFails config o hfail) R resp it ot rm um jerr hinv hparse hjson
    (effMaxRetries config - 1) 1 {} (by omega)
  refine ⟨(retryLoop config o 1 (effMaxRetries config - 1) {}).1, by simp [extractObject, hm], ?_⟩
  rw [hloop]
  exact ⟨rfl, rfl, rfl, rfl, rfl⟩

/-- Witness for the amended C6 at a concrete input: attempt 1 raises,
attempt 2 yields a response reporting 5/7 tokens with undecodable content;
the failed result carries the final attempt's tokens. -/
theorem c6_final_response_metadata_retained_witness :
    ∃ r, (extractObject exDoc exObjA exCfg2 exOracleRaiseThenMeta).1 = .ok r ∧
      r.success = false ∧
      r.input_tokens = PyVal.int 5 ∧ r.output_tokens = PyVal.int 7 ∧
      r.cost = (costStats exCfg2 exOracleRaiseThenMeta 2 (PyVal.dict [])).1 ∧
      r.response_raw = payloadOf exCfg2 exOracleRaiseThenMeta 2
        { content := "oops",
          usageMetaAttr :=
            PyVal.dict [("input_tokens", PyVal.int 5), ("output_tokens", PyVal.int 7)] }
        (PyVal.dict [])
        (PyVal.dict [("input_tokens", PyVal.int 5), ("output_tokens", PyVal.int 7)]) := by
  have hfail : attemptAlwaysFails exOracleRaiseThenMeta := by
    intro a
    by_cases h : a = 1
    · simp [exOracleRaiseThenMeta, h]
    · simp only [exOracleRaiseThenMeta, h, if_false]
      exact ⟨"Expecting value", rfl⟩
  exact c6_final_response_metadata_retained exDoc exObjA exCfg2 exOracleRaiseThenMeta 2
    { content := "oops",
      usageMetaAttr :=
        PyVal.dict [("input_tokens", PyVal.int 5), ("output_tokens", PyVal.int 7)] }
    (PyVal.int 5) (PyVal.int 7) (PyVal.dict [])
    (PyVal.dict [("input_tokens", PyVal.int 5), ("output_tokens", PyVal.int 7)])
    "Expecting value" rfl rfl (by decide) hfail rfl rfl rfl

theorem respOkB_iff (st : Nat) : respOkB st = true ↔ (200 ≤ st ∧ st < 400) := by
  simp [respOkB]

theorem costLoopAux_none_of_neverYields (o : CostOracle) (hny : neverYields o = true) :
    (costLoopAux o 2 1).1 = Option.none := by
  have hrange : List.range 3 = [0, 1, 2] := rfl
  rw [neverYields, hrange] at hny
  simp only [List.all_cons, List.all_nil, List.range, List.range.loop, Bool.and_true,
    Bool.and_eq_true, Bool.or_eq_true, Bool.not_eq_true'] at hny
  obtain ⟨hy0, hy1, hy2⟩ := hny
  have hy0' : (yieldsVal (o.http 1)).isNone = true := by
    rcases hy0 with h | h
    · simp at h
    · exact h
  cases hh1 : o.http 1 with
  | err m => simp [costLoopAux, hh1]
  | resp st1 body1 txt1 =>
    rw [hh1] at hy0'
    by_cases hok1 : 200 ≤ st1 ∧ st1 < 400
    · cases body1 with
      | error e => simp [costLoopAux, respOkB, hh1, hok1]
      | ok g =>
        rw [yieldsVal, if_pos ((respOkB_iff st1).mpr hok1)] at hy0'
        simp [costLoopAux, respOkB, hh1, hok1, Option.isNone_iff_eq_none.mp hy0']
    · by_cases h404 : st1 = 404
      · have h404b : is404B (o.http 1) = true := by simp [hh1, is404B, h404]
        have hy1' : (yieldsVal (o.http 2)).isNone = true := by
          rcases hy1 with h | h
          · simp [h404b] at h
          · exact h
        cases hh2 : o.http 2 with
        | err m => simp [costLoopAux, respOkB, hh1, hok1, h404, hh2]
        | resp st2 body2 txt2 =>
          rw [hh2] at hy1'
          by_cases hok2 : 200 ≤ st2 ∧ st2 < 400
          · cases body2 with
            | error e => simp [costLoopAux, respOkB, hh1, hok1, h404, hh2, hok2]
            | ok g =>
              rw [yieldsVal, if_pos ((respOkB_iff st2).mpr hok2)] at hy1'
              simp [costLoopAux, respOkB, hh1, hok1, h404, hh2, hok2,
                Option.isNone_iff_eq_none.mp hy1']
          · by_cases h404' : st2 = 404
            · have h404b' : is404B (o.http 2) = true := by simp [hh2, is404B, h404']
              have hy2' : (yieldsVal (o.http 3)).isNone = true := by
                rcases hy2 with h | h
                · simp [h404b, h404b'] at h
                · exact h
              cases hh3 : o.http 3 with
              | err m => simp [costLoopAux, respOkB, hh1, hok1, h404, hh2, hok2, h404', hh3]
              | resp st3 body3 txt3 =>
                rw [hh3] at hy2'
                by_cases hok3 : 200 ≤ st3 ∧ st3 < 400
                · cases body3 with
                  | error e =>
                    simp [costLoopAux, respOkB, hh1, hok1, h404, hh2, hok2, h404', hh3, hok3]
                  | ok g =>
                    rw [yieldsVal, if_pos ((respOkB_iff st3).mpr hok3)] at hy2'
                    simp [costLoopAux, respOkB, hh1, hok1, h404, hh2, hok2, h404', hh3, hok3,
                      Option.isNone_iff_eq_none.mp hy2']
                · simp [costLoopAux, respOkB, hh1, hok1, h404, hh2, hok2, h404', hh3, hok3]
            · simp [costLoopAux, respOkB, hh1, hok1, h404, hh2, hok2, h404']
      · simp [costLoopAux, respOkB, hh1, hok1, h404]

theorem fetch_none_of_costFailure (config : ExtractionConfig) (respMeta : PyVal)
    (o : CostOracle) (h : o.importOk = false ∨ neverYields o = true) :
    (fetchGenerationCost config respMeta o).1 = Option.none := by
  rw [fetchGenerationCost]
  by_cases hgate : (config.calculate_costs &&
      pyTruthy (if respMeta.isDictV then pyGet respMeta "id" else PyVal.none)) = true
  · rw [if_pos hgate]
    by_cases himp : o.importOk = true
    · rw [if_pos himp]
      rcases h with h | h
      · rw [himp] at h; exact Bool.noConfusion h
      · exact costLoopAux_none_of_neverYields o h
    · rw [if_neg himp]
  · rw [if_neg hgate]

theorem attemptStep_agrees (config : ExtractionConfig) (inv : Nat → InvokeOutcome)
    (jp : String → Except String PyVal) (ch1 ch2 : Nat → CostOracle) (a : Nat)
    (st1 st2 : LastState) (hst : stAgrees st1 st2) :
    stepAgrees (attemptStep config ⟨inv, jp, ch1⟩ a st1)
      (attemptStep config ⟨inv, jp, ch2⟩ a st2) := by
  obtain ⟨he, hi, ho⟩ := hst
  cases hinv : inv a with
  | raiseErr e =>
    simp only [attemptStep, hinv, stepAgrees, stAgrees]
    exact ⟨trivial, hi, ho⟩
  | ok resp =>
    cases hp : parseTokenUsage resp resp.dictResult with
    | error e =>
      simp only [attemptStep, hinv, hp, stepAgrees, stAgrees]
      exact ⟨trivial, hi, ho⟩
    | ok val =>
      obtain ⟨it, ot, rm, um⟩ := val
      cases hj : jp (cleanResponseContent resp) with
      | ok jv =>
        simp only [attemptStep, hinv, hp, hj, stepAgrees, resAgrees]
        simp
      | error e =>
        simp only [attemptStep, hinv, hp, hj, stepAgrees, stAgrees, okFailState]
        simp

theorem finalResult_agrees (n : Nat) (st1 st2 : LastState) (hst : stAgrees st1 st2) :
    resAgrees (finalResult n st1) (finalResult n st2) := by
  obtain ⟨he, hi, ho⟩ := hst
  exact ⟨rfl, by simp [finalResult, he], rfl, hi, ho⟩

theorem retryLoop_agrees (config : ExtractionConfig) (inv : Nat → InvokeOutcome)
    (jp : String → Except String PyVal) (ch1 ch2 : Nat → CostOracle) :
    ∀ (rem attempt : Nat) (st1 st2 : LastState), stAgrees st1 st2 →
      resAgrees (retryLoop config ⟨inv, jp, ch1⟩ attempt rem st1).1
        (retryLoop config ⟨inv, jp, ch2⟩ attempt rem st2).1 ∧
      (retryLoop config ⟨inv, jp, ch1⟩ attempt rem st1).2 =
        (retryLoop config ⟨inv, jp, ch2⟩ attempt rem st2).2 := by
  intro rem
  induction rem with
  | zero =>
    intro attempt st1 st2 hst
    have hstep := attemptStep_agrees config inv jp ch1 ch2 attempt st1 st2 hst
    cases h1 : attemptStep config ⟨inv, jp, ch1⟩ attempt st1 with
    | done r1 =>
      cases h2 : attemptStep config ⟨inv, jp, ch2⟩ attempt st2 with
      | done r2 =>
        rw [h1, h2] at hstep
        exact ⟨by simp only [retryLoop, h1, h2]; exact hstep, by simp [retryLoop, h1, h2]⟩
      | fail s2 => rw [h1, h2] at hstep; exact absurd hstep (by simp [stepAgrees])
    | fail s1 =>
      cases h2 : attemptStep config ⟨inv, jp, ch2⟩ attempt st2 with
      | done r2 => rw [h1, h2] at hstep; exact absurd hstep (by simp [stepAgrees])
      | fail s2 =>
        rw [h1, h2] at hstep
        simp only [stepAgrees] at hstep
        refine ⟨?_, by simp [retryLoop, h1, h2]⟩
        simp only [retryLoop, h1, h2]
        exact finalResult_agrees (effMaxRetries config) s1 s2 hstep
  | succ rem ih =>
    intro attempt st1 st2 hst
    have hstep := attemptStep_agrees config inv jp ch1 ch2 attempt st1 st2 hst
    cases h1 : attemptStep config ⟨inv, jp, ch1⟩ attempt st1 with
    | done r1 =>
      cases h2 : attemptStep config ⟨inv, jp, ch2⟩ attempt st2 with
      | done r2 =>
        rw [h1, h2] at hstep
        exact ⟨by simp only [retryLoop, h1, h2]; exact hstep, by simp [retryLoop, h1, h2]⟩
      | fail s2 => rw [h1, h2] at hstep; exact absurd hstep (by simp [stepAgrees])
    | fail s1 =>
      cases h2 : attemptStep config ⟨inv, jp, ch2⟩ attempt st2 with
      | done r2 => rw [h1, h2] at hstep; exact absurd hstep (by simp [stepAgrees])
      | fail s2 =>
        rw [h1, h2] at hstep
        simp only [stepAgrees] at hstep
        have := ih (attempt + 1) s1 s2 hstep
        refine ⟨?_, ?_⟩
        · simp only [retryLoop, h1, h2]
          exact this.1
        · simp only [retryLoop, h1, h2]
          rw [this.2]

/-- Claim C5: a failing cost lookup (import failure, transport error,
non-OK status, 404-retry exhaustion, or a body without a numeric total
cost — together: no reachable attempt yields a cost) returns "cost
unknown" (`cost = None`) without raising, and the cost collaborator can
never change an extraction run's success, message, extracted data, token
counts or its invocation/backoff trace. -/
theorem c5_cost_lookup_fault_isolated (doc : Document) (obj : ExtractableObject)
    (config : ExtractionConfig) (meta : PyVal) (co : CostOracle)
    (inv : Nat → InvokeOutcome) (jp : String → Except String PyVal)
    (ch1 ch2 : Nat → CostOracle)
    (h : co.importOk = false ∨ neverYields co = true) :
    (fetchGenerationCost config meta co).1 = Option.none ∧
    resultAgrees (extractObject doc obj config ⟨inv, jp, ch1⟩).1
      (extractObject doc obj config ⟨inv, jp, ch2⟩).1 ∧
    (extractObject doc obj config ⟨inv, jp, ch1⟩).2 =
      (extractObject doc obj config ⟨inv, jp, ch2⟩).2 := by
  refine ⟨fetch_none_of_costFailure config meta co h, ?_, ?_⟩
  · cases hm : buildMessages doc obj config with
    | error e => simp [extractObject, hm, resultAgrees]
    | ok m =>
      simp only [extractObject, hm]
      exact (retryLoop_agrees config inv jp ch1 ch2 (effMaxRetries config - 1) 1 {} {}
        ⟨rfl, rfl, rfl⟩).1
  · cases hm : buildMessages doc obj config with
    | error e => simp [extractObject, hm]
    | ok m =>
      simp only [extractObject, hm]
      exact (retryLoop_agrees config inv jp ch1 ch2 (effMaxRetries config - 1) 1 {} {}
        ⟨rfl, rfl, rfl⟩).2

/-- Witness for C5 at a concrete input: a lookup answering 500 on every
attempt yields no cost even with cost calculation enabled and a generation
id present, and swapping the cost collaborator leaves the run's outcome and
trace unchanged. -/
theorem c5_cost_lookup_fault_isolated_witness :
    (fetchGenerationCost { max_retries := 1, file_input_modes := [], calculate_costs := true }
        (PyVal.dict [("id", PyVal.str "gen1")]) exCost500).1 = Option.none ∧
    resultAgrees
      (extractObject exDoc exObjA
        { max_retries := 1, file_input_modes := [], calculate_costs := true }
        ⟨exOracleOne.invoke, exOracleOne.jsonParse, fun _ => exCost500⟩).1
      (extractObject exDoc exObjA
        { max_retries := 1, file_input_modes := [], calculate_costs := true }
        ⟨exOracleOne.invoke, exOracleOne.jsonParse, fun _ => {}⟩).1 ∧
    (extractObject exDoc exObjA
        { max_retries := 1, file_input_modes := [], calculate_costs := true }
        ⟨exOracleOne.invoke, exOracleOne.jsonParse, fun _ => exCost500⟩).2 =
      (extractObject exDoc exObjA
        { max_retries := 1, file_input_modes := [], calculate_costs := true }
        ⟨exOracleOne.invoke, exOracleOne.jsonParse, fun _ => {}⟩).2 :=
  c5_cost_lookup_fault_isolated exDoc exObjA
    { max_retries := 1, file_input_modes := [], calculate_costs := true }
    (PyVal.dict [("id", PyVal.str "gen1")]) exCost500
    exOracleOne.invoke exOracleOne.jsonParse (fun _ => exCost500) (fun _ => {})
    (Or.inr (by decide))

theorem attemptStep_parallel_irrel (config : ExtractionConfig) (p : Int) (o : TargetOracle)
    (a : Nat) (st : LastState) :
    attemptStep { config with parallel_requests := p } o a st = attemptStep config o a st := rfl

theorem effMaxRetries_parallel_irrel (config : ExtractionConfig) (p : Int) :
    effMaxRetries { config with parallel_requests := p } = effMaxRetries config := rfl

theorem retryLoop_parallel_irrel (config : ExtractionConfig) (p : Int) (o : TargetOracle) :
    ∀ (rem attempt : Nat) (st : LastState),
      retryLoop { config with parallel_requests := p } o attempt rem st =
        retryLoop config o attempt rem st := by
  intro rem
  induction rem with
  | zero =>
    intro attempt st
    simp only [retryLoop, attemptStep_parallel_irrel, effMaxRetries_parallel_irrel]
  | succ rem ih =>
    intro attempt st
    simp only [retryLoop, attemptStep_parallel_irrel]
    cases attemptStep config o attempt st with
    | done r => rfl
    | fail st' => simp only [ih]

theorem extractObject_parallel_irrel (doc : Document) (obj : ExtractableObject)
    (config : ExtractionConfig) (p : Int) (o : TargetOracle) :
    extractObject doc obj { config with parallel_requests := p } o =
      extractObject doc obj config o := by
  have hb : buildMessages doc obj { config with parallel_requests := p } =
      buildMessages doc obj config := rfl
  simp only [extractObject, hb, retryLoop_parallel_irrel, effMaxRetries_parallel_irrel]

theorem extractObjects_parallel_irrel (doc : Document) (objs : List ExtractableObject)
    (config : ExtractionConfig) (p : Int) (oracles : Nat → TargetOracle) (order : List Nat) :
    extractObjects doc ⟨objs, { config with parallel_requests := p }⟩ oracles order =
      extractObjects doc ⟨objs, config⟩ oracles order := by
  have hstep : dispatchStep doc ⟨objs, { config with parallel_requests := p }⟩ oracles =
      dispatchStep doc ⟨objs, config⟩ oracles := by
    funext res i
    simp only [dispatchStep, outcomeRes, extractObject_parallel_irrel]
  simp only [extractObjects, hstep]

theorem hits_eq_of_perms (ote : ObjectsToExtract) (ord1 ord2 : List Nat)
    (hnodup : (ote.objects.map ExtractableObject.name).Nodup)
    (h1 : ord1.Perm (List.range ote.objects.length))
    (h2 : ord2.Perm (List.range ote.objects.length)) (k : String) :
    hits ote ord1 k = hits ote ord2 k := by
  by_cases hex : ∃ (i : Nat) (obj : ExtractableObject), ote.objects[i]? = some obj ∧ obj.name = k
  · rcases hex with ⟨i, obj, hobj, hname⟩
    subst hname
    have hilt : i < ote.objects.length := by
      by_contra hge
      rw [List.getElem?_eq_none (Nat.le_of_not_lt hge)] at hobj
      exact Option.noConfusion hobj
    rw [hits_eq_singleton ote ord1 hnodup (h1.nodup_iff.mpr (List.nodup_range _)) hobj
        (h1.mem_iff.mpr (List.mem_range.mpr hilt)),
      hits_eq_singleton ote ord2 hnodup (h2.nodup_iff.mpr (List.nodup_range _)) hobj
        (h2.mem_iff.mpr (List.mem_range.mpr hilt))]
  · have hnil : ∀ ord : List Nat, hits ote ord k = [] := by
      intro ord
      apply List.filter_eq_nil_iff.mpr
      intro j _
      cases hobj : ote.objects[j]? with
      | none => simp [hobj]
      | some obj =>
        simp only [hobj, decide_eq_true_eq]
        intro hname
        exact hex ⟨j, obj, hobj, hname⟩
    rw [hnil ord1, hnil ord2]

theorem dlookup_dispatch_eq_of_perms (doc : Document) (ote : ObjectsToExtract)
    (oracles : Nat → TargetOracle) (ord1 ord2 : List Nat)
    (hnodup : (ote.objects.map ExtractableObject.name).Nodup)
    (h1 : ord1.Perm (List.range ote.objects.length))
    (h2 : ord2.Perm (List.range ote.objects.length)) (k : String) :
    dlookup (extractObjects doc ote oracles ord1).results k =
      dlookup (extractObjects doc ote oracles ord2).results k := by
  show dlookup (ord1.foldl (dispatchStep doc ote oracles) []) k =
    dlookup (ord2.foldl (dispatchStep doc ote oracles) []) k
  rw [dlookup_dispatch_foldl, dlookup_dispatch_foldl,
    hits_eq_of_perms ote ord1 ord2 hnodup h1 h2 k]

theorem dispatch_results_all_eq (doc : Document) (ote : ObjectsToExtract)
    (oracles : Nat → TargetOracle) (ord1 ord2 : List Nat)
    (hnodup : (ote.objects.map ExtractableObject.name).Nodup)
    (h1 : ord1.Perm (List.range ote.objects.length))
    (h2 : ord2.Perm (List.range ote.objects.length)) :
    ((extractObjects doc ote oracles ord1).results.all fun p => p.2.success) =
      ((extractObjects doc ote oracles ord2).results.all fun p => p.2.success) := by
  have hn1 : (dictKeys (extractObjects doc ote oracles ord1).results).Nodup :=
    nodup_dictKeys_dispatch doc ote oracles ord1 [] (by simp [dictKeys])
  have hn2 : (dictKeys (extractObjects doc ote oracles ord2).results).Nodup :=
    nodup_dictKeys_dispatch doc ote oracles ord2 [] (by simp [dictKeys])
  have hmem : ∀ p : String × ExtractionResult,
      p ∈ (extractObjects doc ote oracles ord1).results ↔
        p ∈ (extractObjects doc ote oracles ord2).results := by
    intro p
    rw [mem_iff_dlookup _ p hn1, mem_iff_dlookup _ p hn2,
      dlookup_dispatch_eq_of_perms doc ote oracles ord1 ord2 hnodup h1 h2]
  rw [Bool.eq_iff_iff, List.all_eq_true, List.all_eq_true]
  constructor
  · intro h p hp
    exact h p ((hmem p).mpr hp)
  · intro h p hp
    exact h p ((hmem p).mp hp)

/-- Claim C9 (amended): provided the input target names are pairwise
distinct, the contents of the result set do not depend on the completion
order at all, and in particular not on the `parallel_requests` setting:
running with parallelism `p1` under any valid schedule and with parallelism
`p2` under any valid schedule yields the same mapping, the same aggregate
success and message, and the same totals. -/
theorem c9_parallelism_scheduling_only (doc : Document) (objs : List ExtractableObject)
    (config : ExtractionConfig) (oracles : Nat → TargetOracle) (p1 p2 : Int)
    (ord1 ord2 : List Nat)
    (hnodup : (objs.map ExtractableObject.name).Nodup)
    (h1 : ord1.Perm (List.range objs.length)) (h2 : ord2.Perm (List.range objs.length)) :
    sameContents
      (extractObjects doc ⟨objs, { config with parallel_requests := p1 }⟩ oracles ord1)
      (extractObjects doc ⟨objs, { config with parallel_requests := p2 }⟩ oracles ord2) := by
  rw [extractObjects_parallel_irrel doc objs config p1 oracles ord1,
    extractObjects_parallel_irrel doc objs config p2 oracles ord2]
  have hall := dispatch_results_all_eq doc ⟨objs, config⟩ oracles ord1 ord2 hnodup h1 h2
  refine ⟨fun k => dlookup_dispatch_eq_of_perms doc ⟨objs, config⟩ oracles ord1 ord2
    hnodup h1 h2 k, ?_, ?_, rfl, rfl, rfl⟩
  · exact hall
  · show (if (ord1.foldl (dispatchStep doc ⟨objs, config⟩ oracles) []).all
        (fun p => p.2.success) then Option.none else some "Some extractions failed") =
      (if (ord2.foldl (dispatchStep doc ⟨objs, config⟩ oracles) []).all
        (fun p => p.2.success) then Option.none else some "Some extractions failed")
    rw [show (ord1.foldl (dispatchStep doc ⟨objs, config⟩ oracles) []).all
        (fun p => p.2.success) =
      (ord2.foldl (dispatchStep doc ⟨objs, config⟩ oracles) []).all
        (fun p => p.2.success) from hall]

/-- Claim C9 (counterexample): with two targets sharing the name `A` whose
extractions yield different data, the forced completion order of a
single-worker pool and a valid completion order of a four-worker pool store
different results under `A` — parallelism does change the output. -/
theorem c9_duplicate_names_counterexample :
    validOrder (maxWorkers ⟨[exObjA, exObjA2], { exCfg1 with parallel_requests := 1 }⟩)
      2 [0, 1] ∧
    validOrder (maxWorkers ⟨[exObjA, exObjA2], { exCfg1 with parallel_requests := 4 }⟩)
      2 [1, 0] ∧
    ((dlookup (extractObjects exDoc ⟨[exObjA, exObjA2], { exCfg1 with parallel_requests := 1 }⟩
        (fun i => if i = 0 then exOracleOne else exOracleTwo) [0, 1]).results "A").map
      (fun r => r.extracted_data) = some (PyVal.int 2)) ∧
    ((dlookup (extractObjects exDoc ⟨[exObjA, exObjA2], { exCfg1 with parallel_requests := 4 }⟩
        (fun i => if i = 0 then exOracleOne else exOracleTwo) [1, 0]).results "A").map
      (fun r => r.extracted_data) = some (PyVal.int 1)) ∧
    ¬ sameContents
      (extractObjects exDoc ⟨[exObjA, exObjA2], { exCfg1 with parallel_requests := 1 }⟩
        (fun i => if i = 0 then exOracleOne else exOracleTwo) [0, 1])
      (extractObjects exDoc ⟨[exObjA, exObjA2], { exCfg1 with parallel_requests := 4 }⟩
        (fun i => if i = 0 then exOracleOne else exOracleTwo) [1, 0]) := by
  refine ⟨⟨by decide, fun _ => rfl⟩, ⟨by decide, by decide⟩, rfl, rfl, ?_⟩
  intro hsc
  have h := hsc.1 "A"
  have hmap := congrArg (Option.map (fun r : ExtractionResult => r.extracted_data)) h
  have hint : some (PyVal.int 2) = some (PyVal.int 1) := hmap
  simp at hint

/-- Witness for the amended C9 at a concrete input: two distinct names,
parallelism 1 with the forced order against parallelism 4 with a reversed
order give the same contents. -/
theorem c9_parallelism_scheduling_only_witness :
    sameContents
      (extractObjects exDoc ⟨[exObjA, exObjB], { exCfg1 with parallel_requests := 1 }⟩
        (fun i => if i = 0 then exOracleOne else exOracleTwo) [0, 1])
      (extractObjects exDoc ⟨[exObjA, exObjB], { exCfg1 with parallel_requests := 4 }⟩
        (fun i => if i = 0 then exOracleOne else exOracleTwo) [1, 0]) :=
  c9_parallelism_scheduling_only exDoc [exObjA, exObjB] exCfg1
    (fun i => if i = 0 then exOracleOne else exOracleTwo) 1 4 [0, 1] [1, 0]
    (by decide) (by decide) (by decide)

theorem replFuel_fuel_irrel (pat repl : List Char) :
    ∀ (f1 f2 : Nat) (s : List Char), s.length ≤ f1 → s.length ≤ f2 →
      replFuel pat repl f1 s = replFuel pat repl f2 s := by
  intro f1
  induction f1 with
  | zero =>
    intro f2 s h1 _
    have hs : s = [] := List.length_eq_zero.mp (Nat.le_zero.mp h1)
    subst hs
    cases f2 <;> rfl
  | succ f1 ih =>
    intro f2 s h1 h2
    cases s with
    | nil => cases f2 <;> rfl
    | cons c cs =>
      cases f2 with
      | zero => simp at h2
      | succ g =>
        simp only [replFuel]
        by_cases hp : pat ≠ [] ∧ pat.isPrefixOf (c :: cs)
        · rw [if_pos hp, if_pos hp]
          have hlen : (cs.drop (pat.length - 1)).length ≤ cs.length := by
            simp
          simp only [List.length_cons] at h1 h2
          rw [ih g (cs.drop (pat.length - 1)) (by omega) (by omega)]
        · rw [if_neg hp, if_neg hp]
          simp only [List.length_cons] at h1 h2
          rw [ih g cs (by omega) (by omega)]

theorem replaceL_cons_pos (pat repl : List Char) (c : Char) (cs : List Char)
    (h : pat ≠ [] ∧ pat.isPrefixOf (c :: cs)) :
    replaceL pat repl (c :: cs) = repl ++ replaceL pat repl (cs.drop (pat.length - 1)) := by
  show replFuel pat repl (c :: cs).length (c :: cs) = _
  simp only [List.length_cons, replFuel]
  rw [if_pos h]
  rw [replFuel_fuel_irrel pat repl cs.length (cs.drop (pat.length - 1)).length
    (cs.drop (pat.length - 1)) (by simp) (Nat.le_refl _)]
  rfl

theorem replaceL_cons_neg (pat repl : List Char) (c : Char) (cs : List Char)
    (h : ¬(pat ≠ [] ∧ pat.isPrefixOf (c :: cs))) :
    replaceL pat repl (c :: cs) = c :: replaceL pat repl cs := by
  show replFuel pat repl (c :: cs).length (c :: cs) = _
  simp only [List.length_cons, replFuel]
  rw [if_neg h]
  rfl

theorem replaceL_del_pat_append (pat rest : List Char) (hne : pat ≠ []) :
    replaceL pat [] (pat ++ rest) = replaceL pat [] rest := by
  cases pat with
  | nil => exact absurd rfl hne
  | cons q qs =>
    rw [show (q :: qs) ++ rest = q :: (qs ++ rest) from rfl]
    rw [replaceL_cons_pos (q :: qs) [] q (qs ++ rest)
      ⟨hne, List.isPrefixOf_iff_prefix.mpr ⟨rest, rfl⟩⟩]
    simp only [List.length_cons, Nat.add_sub_cancel, List.nil_append]
    rw [List.drop_left qs rest]

theorem fjson_no_borrow (s : List Char) (h : ¬ fjson.isPrefixOf s = true) :
    ¬ fjson.isPrefixOf (s ++ ticks3) = true := by
  intro hpre
  rw [List.isPrefixOf_iff_prefix] at hpre h
  by_cases hlen : 7 ≤ s.length
  · apply h
    have heq : fjson = List.take 7 (s ++ ticks3) := by
      rw [List.prefix_iff_eq_take] at hpre
      exact hpre
    have heq2 : fjson = List.take 7 s := by
      rw [heq, List.take_append_of_le_length hlen]
    rw [List.prefix_iff_eq_take]
    exact heq2
  · have hlen2 : 7 ≤ s.length + 3 := by
      have := hpre.length_le
      simp only [List.length_append, show fjson.length = 7 from rfl,
        show ticks3.length = 3 from rfl] at this
      omega
    have htake : fjson = s ++ ticks3.take (7 - s.length) := by
      rw [List.prefix_iff_eq_take] at hpre
      rw [hpre, show fjson.length = 7 from rfl, List.take_append_eq_append_take,
        List.take_of_length_le (by omega : s.length ≤ 7)]
    have hcase : s.length = 4 ∨ s.length = 5 ∨ s.length = 6 := by omega
    rcases hcase with hc | hc | hc <;>
      rw [hc] at htake <;>
      have hcontra := congrArg List.getLast? htake <;>
      rw [List.getLast?_append] at hcontra
    · rw [show (ticks3.take (7 - 4)).getLast? = some '`' from rfl, Option.or_some] at hcontra
      exact absurd hcontra (by decide)
    · rw [show (ticks3.take (7 - 5)).getLast? = some '`' from rfl, Option.or_some] at hcontra
      exact absurd hcontra (by decide)
    · rw [show (ticks3.take (7 - 6)).getLast? = some '`' from rfl, Option.or_some] at hcontra
      exact absurd hcontra (by decide)

theorem replaceL_fjson_append :
    ∀ (n : Nat) (s : List Char), s.length ≤ n →
      replaceL fjson [] (s ++ ticks3) = replaceL fjson [] s ++ ticks3 := by
  intro n
  induction n with
  | zero =>
    intro s hs
    have : s = [] := List.length_eq_zero.mp (Nat.le_zero.mp hs)
    subst this
    decide
  | succ n ih =>
    intro s hs
    cases s with
    | nil => decide
    | cons c cs =>
      by_cases hp : fjson.isPrefixOf (c :: cs) = true
      · have hp' : fjson.isPrefixOf (c :: (cs ++ ticks3)) = true := by
          rw [List.isPrefixOf_iff_prefix] at hp ⊢
          exact hp.trans (List.prefix_append (c :: cs) ticks3)
        rw [show (c :: cs) ++ ticks3 = c :: (cs ++ ticks3) from rfl]
        rw [replaceL_cons_pos fjson [] c (cs ++ ticks3) ⟨by decide, hp'⟩,
          replaceL_cons_pos fjson [] c cs ⟨by decide, hp⟩]
        have hlen : 6 ≤ cs.length := by
          have := (List.isPrefixOf_iff_prefix.mp hp).length_le
          simp only [show fjson.length = 7 from rfl, List.length_cons] at this
          omega
        rw [show fjson.length - 1 = 6 from rfl, List.drop_append_of_le_length hlen]
        simp only [List.nil_append, List.length_cons] at hs ⊢
        rw [ih (cs.drop 6) (by simp; omega)]
      · have hp' := fjson_no_borrow (c :: cs) hp
        rw [show (c :: cs) ++ ticks3 = c :: (cs ++ ticks3) from rfl] at hp' ⊢
        rw [replaceL_cons_neg fjson [] c (cs ++ ticks3) (by simp [hp']),
          replaceL_cons_neg fjson [] c cs (by simp [hp])]
        simp only [List.length_cons] at hs
        rw [ih cs (by omega)]
        rfl

theorem replaceL_ticks_append :
    ∀ (n : Nat) (t : List Char), t.length ≤ n →
      replaceL ticks3 [] (t ++ ticks3) = replaceL ticks3 [] t := by
  intro n
  induction n with
  | zero =>
    intro t ht
    have : t = [] := List.length_eq_zero.mp (Nat.le_zero.mp ht)
    subst this
    decide
  | succ n ih =>
    intro t ht
    cases t with
    | nil => decide
    | cons c cs =>
      by_cases hp : ticks3.isPrefixOf (c :: cs) = true
      · have hp' : ticks3.isPrefixOf (c :: (cs ++ ticks3)) = true := by
          rw [List.isPrefixOf_iff_prefix] at hp ⊢
          exact hp.trans (List.prefix_append (c :: cs) ticks3)
        rw [show (c :: cs) ++ ticks3 = c :: (cs ++ ticks3) from rfl]
        rw [replaceL_cons_pos ticks3 [] c (cs ++ ticks3) ⟨by decide, hp'⟩,
          replaceL_cons_pos ticks3 [] c cs ⟨by decide, hp⟩]
        have hlen : 2 ≤ cs.length := by
          have := (List.isPrefixOf_iff_prefix.mp hp).length_le
          simp only [show ticks3.length = 3 from rfl, List.length_cons] at this
          omega
        rw [show ticks3.length - 1 = 2 from rfl, List.drop_append_of_le_length hlen]
        simp only [List.nil_append, List.length_cons] at ht ⊢
        rw [ih (cs.drop 2) (by simp; omega)]
      · by_cases hp2 : ticks3.isPrefixOf ((c :: cs) ++ ticks3) = true
        · have hshort : (c :: cs).length ≤ 2 := by
            by_contra hge
            apply hp
            rw [List.isPrefixOf_iff_prefix] at hp2 ⊢
            have heq : ticks3 = List.take 3 ((c :: cs) ++ ticks3) := by
              rw [List.prefix_iff_eq_take] at hp2
              exact hp2
            have heq2 : ticks3 = List.take 3 (c :: cs) := by
              rw [heq, List.take_append_of_le_length (by omega : 3 ≤ (c :: cs).length)]
            rw [List.prefix_iff_eq_take]
            exact heq2
          rw [List.isPrefixOf_iff_prefix] at hp2
          cases cs with
          | nil =>
            have hp2' : ('`' : Char) :: '`' :: '`' :: [] <+: c :: ticks3 := hp2
            rw [List.cons_prefix_cons] at hp2'
            obtain ⟨hc, _⟩ := hp2'
            subst hc
            decide
          | cons d cs' =>
            cases cs' with
            | nil =>
              have hp2' : ('`' : Char) :: '`' :: '`' :: [] <+: c :: d :: ticks3 := hp2
              rw [List.cons_prefix_cons] at hp2'
              obtain ⟨hc, hp2''⟩ := hp2'
              rw [List.cons_prefix_cons] at hp2''
              obtain ⟨hd, _⟩ := hp2''
              subst hc
              subst hd
              decide
            | cons e cs'' =>
              exfalso
              simp only [List.length_cons] at hshort
              omega
        · rw [show (c :: cs) ++ ticks3 = c :: (cs ++ ticks3) from rfl] at hp2 ⊢
          rw [replaceL_cons_neg ticks3 [] c (cs ++ ticks3) (by simp [hp2]),
            replaceL_cons_neg ticks3 [] c cs (by simp [hp])]
          simp only [List.length_cons] at ht
          rw [ih cs (by omega)]

/-- Claim C7: wrapping any response content in markdown code fences
(```` ```json ```` before, ```` ``` ```` after) changes nothing after the
fence-stripping cleaner: the cleaned string is identical, hence any JSON
parser yields the identical structured data on both. -/
theorem c7_fence_wrapping_invariant (s : String) (parse : String → Except String PyVal) :
    cleanStr ("```json" ++ s ++ "```") = cleanStr s ∧
    parse (cleanStr ("```json" ++ s ++ "```")) = parse (cleanStr s) := by
  have hdata : ("```json" ++ s ++ "```").data = fjson ++ (s.data ++ ticks3) := by
    rw [String.data_append, String.data_append]
    simp [fjson, ticks3, List.append_assoc]
  have h1 : (pyReplace ("```json" ++ s ++ "```") "```json" "").data =
      replaceL fjson [] s.data ++ ticks3 := by
    show replaceL fjson [] ("```json" ++ s ++ "```").data = _
    rw [hdata, replaceL_del_pat_append fjson _ (by decide),
      replaceL_fjson_append s.data.length s.data (Nat.le_refl _)]
  have h2 : (pyReplace (pyReplace ("```json" ++ s ++ "```") "```json" "") "```" "").data =
      (pyReplace (pyReplace s "```json" "") "```" "").data := by
    show replaceL ticks3 [] (pyReplace ("```json" ++ s ++ "```") "```json" "").data =
      replaceL ticks3 [] (pyReplace s "```json" "").data
    rw [h1, replaceL_ticks_append (replaceL fjson [] s.data).length _ (Nat.le_refl _)]
    rfl
  have hclean : cleanStr ("```json" ++ s ++ "```") = cleanStr s := by
    have := congrArg
      (fun l : List Char => (⟨((l.dropWhile isPyWs).reverse.dropWhile isPyWs).reverse⟩ : String))
      h2
    exact this
  exact ⟨hclean, congrArg parse hclean⟩

theorem eraseKey_cons_self {α : Type} (k : String) (p : String × α) (rest : List (String × α))
    (hp : p.1 = k) : eraseKey k (p :: rest) = eraseKey k rest := by
  simp [eraseKey, List.filter_cons, hp]

theorem eraseKey_cons_ne {α : Type} (k : String) (p : String × α) (rest : List (String × α))
    (hp : ¬p.1 = k) : eraseKey k (p :: rest) = p :: eraseKey k rest := by
  simp [eraseKey, List.filter_cons, hp]

theorem dlookup_eraseKey_self {α : Type} (k : String) (l : List (String × α)) :
    dlookup (eraseKey k l) k = Option.none := by
  induction l with
  | nil => rfl
  | cons p rest ih =>
    by_cases hp : p.1 = k
    · rw [eraseKey_cons_self k p rest hp]
      exact ih
    · rw [eraseKey_cons_ne k p rest hp]
      simp [dlookup, hp, ih]

theorem dlookup_eraseKey_ne {α : Type} {k k' : String} (l : List (String × α))
    (h : k' ≠ k) : dlookup (eraseKey k l) k' = dlookup l k' := by
  induction l with
  | nil => rfl
  | cons p rest ih =>
    by_cases hp : p.1 = k
    · have hp' : ¬(p.1 = k') := by rw [hp]; exact Ne.symm h
      rw [eraseKey_cons_self k p rest hp, ih]
      simp [dlookup, hp']
    · rw [eraseKey_cons_ne k p rest hp]
      by_cases hpk : p.1 = k' <;> simp [dlookup, hpk, ih]

/-- Claim C10: in the token-combination core of `_parse_token_usage`, a
reported count of 0 under a primary field name is treated exactly as if the
field were absent — erasing a zero-valued `input_tokens` or `output_tokens`
entry from the usage-metadata dict leaves the function's entire output
unchanged, so the zero falls through to the fallback names and the
secondary `token_usage` block and is never itself the returned count. -/
theorem c10_zero_tokens_treated_as_absent (d : List (String × PyVal)) (rm : PyVal) :
    (dlookup d "input_tokens" = some (PyVal.int 0) →
      tokensCore (PyVal.dict d) rm = tokensCore (PyVal.dict (eraseKey "input_tokens" d)) rm) ∧
    (dlookup d "output_tokens" = some (PyVal.int 0) →
      tokensCore (PyVal.dict d) rm = tokensCore (PyVal.dict (eraseKey "output_tokens" d)) rm) := by
  have p1 : ∀ x, pyOr (PyVal.int 0) x = x := fun x => by simp [pyOr, pyTruthy]
  have p2 : ∀ x, pyOr PyVal.none x = x := fun x => by simp [pyOr, pyTruthy]
  constructor
  · intro h
    have e1 : pyGet (PyVal.dict d) "input_tokens" = PyVal.int 0 := by
      simp [pyGet, pyGetD, h]
    have e2 : pyGet (PyVal.dict (eraseKey "input_tokens" d)) "input_tokens" = PyVal.none := by
      simp [pyGet, pyGetD, dlookup_eraseKey_self]
    have e3 : pyGet (PyVal.dict (eraseKey "input_tokens" d)) "prompt_tokens" =
        pyGet (PyVal.dict d) "prompt_tokens" := by
      simp [pyGet, pyGetD, dlookup_eraseKey_ne d (by decide : "prompt_tokens" ≠ "input_tokens")]
    have e4 : pyGet (PyVal.dict (eraseKey "input_tokens" d)) "output_tokens" =
        pyGet (PyVal.dict d) "output_tokens" := by
      simp [pyGet, pyGetD, dlookup_eraseKey_ne d (by decide : "output_tokens" ≠ "input_tokens")]
    have e5 : pyGet (PyVal.dict (eraseKey "input_tokens" d)) "completion_tokens" =
        pyGet (PyVal.dict d) "completion_tokens" := by
      simp [pyGet, pyGetD,
        dlookup_eraseKey_ne d (by decide : "completion_tokens" ≠ "input_tokens")]
    simp only [tokensCore, PyVal.isDictV, e1, e2, e3, e4, e5, p1, p2]
  · intro h
    have e1 : pyGet (PyVal.dict d) "output_tokens" = PyVal.int 0 := by
      simp [pyGet, pyGetD, h]
    have e2 : pyGet (PyVal.dict (eraseKey "output_tokens" d)) "output_tokens" = PyVal.none := by
      simp [pyGet, pyGetD, dlookup_eraseKey_self]
    have e3 : pyGet (PyVal.dict (eraseKey "output_tokens" d)) "completion_tokens" =
        pyGet (PyVal.dict d) "completion_tokens" := by
      simp [pyGet, pyGetD,
        dlookup_eraseKey_ne d (by decide : "completion_tokens" ≠ "output_tokens")]
    have e4 : pyGet (PyVal.dict (eraseKey "output_tokens" d)) "input_tokens" =
        pyGet (PyVal.dict d) "input_tokens" := by
      simp [pyGet, pyGetD, dlookup_eraseKey_ne d (by decide : "input_tokens" ≠ "output_tokens")]
    have e5 : pyGet (PyVal.dict (eraseKey "output_tokens" d)) "prompt_tokens" =
        pyGet (PyVal.dict d) "prompt_tokens" := by
      simp [pyGet, pyGetD, dlookup_eraseKey_ne d (by decide : "prompt_tokens" ≠ "output_tokens")]
    simp only [tokensCore, PyVal.isDictV, e1, e2, e3, e4, e5, p1, p2]

/-- Witness for C10 at a concrete input: a usage dict reporting 0 input
tokens yields the same token pair as the dict with that entry removed (the
0 falls through to `prompt_tokens`). -/
theorem c10_zero_tokens_treated_as_absent_witness :
    tokensCore (PyVal.dict [("input_tokens", PyVal.int 0), ("prompt_tokens", PyVal.int 3),
        ("output_tokens", PyVal.int 4)]) PyVal.none =
      tokensCore (PyVal.dict (eraseKey "input_tokens"
        [("input_tokens", PyVal.int 0), ("prompt_tokens", PyVal.int 3),
          ("output_tokens", PyVal.int 4)])) PyVal.none :=
  (c10_zero_tokens_treated_as_absent
    [("input_tokens", PyVal.int 0), ("prompt_tokens", PyVal.int 3),
      ("output_tokens", PyVal.int 4)] PyVal.none).1 rfl
